import Mathlib

/-!
# Trainer availability and appointment booking

A shallow embedding of the handlers of `src/trainer/trainer.go` that own the
`availability_slots` and `appointments` tables (`SetAvailability`,
`CreateAppointment`, `GetTrainerAvailability`, `GetTrainerClients`,
`GetTrainerAppointments`), of `GetMyTrainers` of
`src/trainee/trainer_relationships.go`, of `ValidateClientBelongsToTrainer`
of `src/trainer/util/helper.go`, and of `Register`, `Login` and
`generateToken` of `src/admin/admin.go`.

Modelling choices:

* A table is the list of its rows, in insertion order.  `Store` is the committed
  content of the `trainer` database.
* A handler is a function from the committed store before the call to an
  `Outcome`: the value returned to the caller together with the committed store
  after the call.
* The SQL schema is not part of the sources, and a statement can also fail for
  reasons outside the program.  What the storage layer answers to `Begin`, to
  each statement of the transaction and to `Commit` is therefore an input of
  the model (`Storage`), together with the values the storage layer generates
  itself (row ids, timestamps).
* `defer tx.Rollback()` discards the work of a transaction that did not reach a
  successful `Commit`: every error path returns the store of before the call.
* What the storage layer answers to a read is an input too (`Reads`): the error
  of the query, of the scan of each row, and of the iteration, which may stop
  before the end of the result set.  A result set is listed in table order.
* Go's `time.Time` is a natural number (the zero time is `0`), `int` is `Int`
  (no arithmetic is done on it), `error` is its message.
-/

namespace FitnessApp

/-- Go's `error`, identified with its message. -/
abbrev Error := String

/-! ## Rows of the database -/

/-- Row of table `trainers` (the floating point columns `hourly_rate` and
`rating` are left out; no handler modelled here reads this table). -/
structure TrainerRow where
  id : String
  user_id : Int
  specialization : List String
  years_of_experience : Int
  bio : String
deriving DecidableEq, Repr

/-- Row of table `availability_slots`. -/
structure SlotRow where
  id : String
  trainer_id : String
  day_of_week : Int
  start_time : String
  end_time : String
  is_recurring : Bool
  is_booked : Bool
  created_at : Nat
deriving DecidableEq, Repr

/-- Row of table `appointments`.  `trainer_id` and `notes` are nullable: the
only `INSERT` of the sources gives them no value. -/
structure AppointmentRow where
  id : String
  client_id : String
  trainer_id : Option String
  slot_id : String
  status : String
  notes : Option String
  created_at : Nat
  updated_at : Nat
deriving DecidableEq, Repr

/-- Committed content of the database `trainer`. -/
structure Store where
  trainers : List TrainerRow
  availability_slots : List SlotRow
  appointments : List AppointmentRow
deriving DecidableEq, Repr

/-! ## Go values exchanged with the caller -/

/-- Go struct `AvailabilitySlot`. -/
structure AvailabilitySlot where
  ID : String
  TrainerID : String
  DayOfWeek : Int
  StartTime : String
  EndTime : String
  IsRecurring : Bool
  IsBooked : Bool
  CreatedAt : Nat
deriving DecidableEq, Repr

/-- Go struct `Appointment`; `Slot` and `Notes` are pointers. -/
structure Appointment where
  ID : String
  ClientID : String
  TrainerID : String
  SlotID : String
  Slot : Option AvailabilitySlot
  Status : String
  Notes : Option String
  CreatedAt : Nat
  UpdatedAt : Nat
deriving DecidableEq, Repr

/-- Go struct `SetAvailabilityRequest`. -/
structure SetAvailabilityRequest where
  TrainerID : String
  Slots : List AvailabilitySlot
deriving DecidableEq, Repr

/-- Go struct `SetAvailabilityResponse`. -/
structure SetAvailabilityResponse where
  Slots : List AvailabilitySlot
deriving DecidableEq, Repr

/-- Go struct `CreateAppointmentRequest`. -/
structure CreateAppointmentRequest where
  ClientID : String
  SlotID : String
deriving DecidableEq, Repr

/-- Go struct `GetTrainerAvailabilityResponse`. -/
structure GetTrainerAvailabilityResponse where
  Slots : List AvailabilitySlot
deriving DecidableEq, Repr

/-- Go struct `GetTrainerClientsResponse`. -/
structure GetTrainerClientsResponse where
  ClientIDs : List String
deriving DecidableEq, Repr

/-- Go struct `GetTrainerAppointmentsResponse`. -/
structure GetTrainerAppointmentsResponse where
  Appointments : List Appointment
deriving DecidableEq, Repr

/-! ## The storage layer during one call -/

/-- What the storage layer answers during one handler call: the error (if any)
of `db.Begin`, of the `n`-th statement issued on the transaction (counted from
`0`) and of `tx.Commit`, the value of `NOW()` used for defaulted timestamp
columns, and the id it generates for an inserted appointment row. -/
structure Storage where
  begin : Option Error
  exec : Nat → Option Error
  commit : Option Error
  now : Nat
  newID : String

/-- Value returned by a handler, and committed store after the call. -/
structure Outcome (α : Type) where
  result : Except Error α
  store : Store

/-- The storage layer accepts `Begin`, the first `n` statements and `Commit`. -/
def Storage.accepts (st : Storage) (n : Nat) : Prop :=
  st.begin = none ∧ (∀ i, i < n → st.exec i = none) ∧ st.commit = none

instance (st : Storage) (n : Nat) : Decidable (st.accepts n) := by
  unfold Storage.accepts; infer_instance

/-- A storage layer that accepts everything. -/
def Storage.ok (now : Nat) (newID : String) : Storage :=
  { begin := none, exec := fun _ => none, commit := none, now := now, newID := newID }

/-! ## SQL statements -/

/-- `DELETE FROM availability_slots WHERE trainer_id = $1`. -/
def deleteSlots (db : Store) (trainerID : String) : Store :=
  { db with availability_slots := db.availability_slots.filter (fun r => r.trainer_id != trainerID) }

/-- Row written by the `INSERT INTO availability_slots` of `SetAvailability`:
the trainer id is the request's, `created_at` is defaulted. -/
def slotRow (now : Nat) (trainerID : String) (slot : AvailabilitySlot) : SlotRow :=
  { id := slot.ID, trainer_id := trainerID, day_of_week := slot.DayOfWeek,
    start_time := slot.StartTime, end_time := slot.EndTime,
    is_recurring := slot.IsRecurring, is_booked := slot.IsBooked, created_at := now }

/-- `INSERT INTO availability_slots (id, trainer_id, day_of_week, start_time,
end_time, is_recurring, is_booked) VALUES (...)`. -/
def insertSlot (db : Store) (now : Nat) (trainerID : String) (slot : AvailabilitySlot) : Store :=
  { db with availability_slots := db.availability_slots ++ [slotRow now trainerID slot] }

/-- Row written by `INSERT INTO appointments (client_id, slot_id, status)
VALUES ($1, $2, 'scheduled')`: the other columns are defaulted. -/
def appointmentRow (st : Storage) (clientID slotID : String) : AppointmentRow :=
  { id := st.newID, client_id := clientID, trainer_id := none, slot_id := slotID,
    status := "scheduled", notes := none, created_at := st.now, updated_at := st.now }

/-- The `INSERT INTO appointments` statement. -/
def insertAppointment (db : Store) (row : AppointmentRow) : Store :=
  { db with appointments := db.appointments ++ [row] }

/-- `UPDATE availability_slots SET is_booked = true WHERE id = $1`. -/
def markBooked (db : Store) (slotID : String) : Store :=
  { db with availability_slots :=
      db.availability_slots.map (fun r => if r.id = slotID then { r with is_booked := true } else r) }

/-! ## Handlers -/

/-- The loop `for _, slot := range req.Slots` of `SetAvailability`: one
`INSERT` per slot, `n` being the index of the next statement; the first error
ends the loop. -/
def insertSlots (st : Storage) (trainerID : String) :
    List AvailabilitySlot → Nat → Store → Except Error Store
  | [], _, w => .ok w
  | slot :: rest, n, w =>
    match st.exec n with
    | some err => .error err
    | none => insertSlots st trainerID rest (n + 1) (insertSlot w st.now trainerID slot)

/-- Handler `SetAvailability`. -/
def SetAvailability (st : Storage) (db : Store) (req : SetAvailabilityRequest) :
    Outcome SetAvailabilityResponse :=
  match st.begin with
  | some err => ⟨.error err, db⟩
  | none =>
    match st.exec 0 with
    | some err => ⟨.error err, db⟩
    | none =>
      match insertSlots st req.TrainerID req.Slots 1 (deleteSlots db req.TrainerID) with
      | .error err => ⟨.error err, db⟩
      | .ok w =>
        match st.commit with
        | some err => ⟨.error err, db⟩
        | none => ⟨.ok ⟨req.Slots⟩, w⟩

/-- The `Scan` of the `RETURNING id, client_id, slot_id, status, created_at,
updated_at` clause into a fresh `Appointment`: the fields `TrainerID`, `Slot`
and `Notes` are not scanned and keep their zero values. -/
def scanAppointment (row : AppointmentRow) : Appointment :=
  { ID := row.id, ClientID := row.client_id, TrainerID := "", SlotID := row.slot_id,
    Slot := none, Status := row.status, Notes := none,
    CreatedAt := row.created_at, UpdatedAt := row.updated_at }

/-- Handler `CreateAppointment`: statement `0` is the `INSERT ... RETURNING`,
statement `1` the `UPDATE` of the slot. -/
def CreateAppointment (st : Storage) (db : Store) (req : CreateAppointmentRequest) :
    Outcome Appointment :=
  match st.begin with
  | some err => ⟨.error err, db⟩
  | none =>
    match st.exec 0 with
    | some err => ⟨.error err, db⟩
    | none =>
      let row := appointmentRow st req.ClientID req.SlotID
      let w := insertAppointment db row
      match st.exec 1 with
      | some err => ⟨.error err, db⟩
      | none =>
        match st.commit with
        | some err => ⟨.error err, db⟩
        | none => ⟨.ok (scanAppointment row), markBooked w req.SlotID⟩

/-- The `Scan` of one row of `SELECT id, day_of_week, start_time, end_time,
is_recurring, is_booked, created_at FROM availability_slots`: `trainer_id` is
not selected, so `TrainerID` keeps its zero value. -/
def scanSlot (r : SlotRow) : AvailabilitySlot :=
  { ID := r.id, TrainerID := "", DayOfWeek := r.day_of_week, StartTime := r.start_time,
    EndTime := r.end_time, IsRecurring := r.is_recurring, IsBooked := r.is_booked,
    CreatedAt := r.created_at }

/-! ## Read handlers that scan a result set -/

/-- What the storage layer answers to a read: the error (if any) of `db.Query`,
of the `Scan` of the `n`-th row delivered, and of the iteration (`rowsErr`, the
value of `rows.Err()` after the loop), with the number of rows `rows.Next()`
delivered before the iteration failed.  `rows.Next()` returns `false` both at
the end of the result set and on an iteration error; only `GetMyTrainers`
calls `rows.Err()` to tell them apart. -/
structure Reads where
  query : Option Error
  scan : Nat → Option Error
  rowsErr : Option Error
  delivered : Nat

/-- A storage layer that answers a read without error. -/
def Reads.ok : Reads :=
  { query := none, scan := fun _ => none, rowsErr := none, delivered := 0 }

/-- The rows for which `rows.Next()` returns `true`: the whole result set, or,
when the iteration fails, the rows delivered before the failure. -/
def Reads.rows {ρ : Type} (rd : Reads) (resultSet : List ρ) : List ρ :=
  match rd.rowsErr with
  | none => resultSet
  | some _ => resultSet.take rd.delivered

/-- The loop `for rows.Next()`: each row is scanned and appended to the values
collected so far; a `Scan` error, wrapped by `wrap`, ends the handler.  `n` is
the index of the next row. -/
def scanRows {ρ α : Type} (rd : Reads) (wrap : Error → Error) (scan : ρ → α) :
    List ρ → Nat → List α → Except Error (List α)
  | [], _, acc => .ok acc
  | row :: rest, n, acc =>
    match rd.scan n with
    | some err => .error (wrap err)
    | none => scanRows rd wrap scan rest (n + 1) (acc ++ [scan row])

/-- Result set of `SELECT id, day_of_week, start_time, end_time, is_recurring,
is_booked, created_at FROM availability_slots WHERE trainer_id = $1`. -/
def slotRows (db : Store) (trainerID : String) : List SlotRow :=
  db.availability_slots.filter (fun r => r.trainer_id == trainerID)

/-- Handler `GetTrainerAvailability`; the errors of `db.Query` and of
`rows.Scan` are returned as they are, and `rows.Err()` is not called: when the
iteration fails, the slots read so far are returned without error. -/
def GetTrainerAvailability (rd : Reads) (db : Store) (trainerID : String) :
    Except Error GetTrainerAvailabilityResponse :=
  match rd.query with
  | some err => .error err
  | none =>
    match scanRows rd id scanSlot (rd.rows (slotRows db trainerID)) 0 [] with
    | .error err => .error err
    | .ok slots => .ok ⟨slots⟩

/-- Result set of `SELECT DISTINCT client_id FROM appointments JOIN
availability_slots ON appointments.slot_id = availability_slots.id WHERE
availability_slots.trainer_id = $1`. -/
def clientRows (db : Store) (trainerID : String) : List String :=
  (db.appointments.flatMap (fun a =>
    (db.availability_slots.filter
      (fun av => a.slot_id == av.id && av.trainer_id == trainerID)).map
        (fun _ => a.client_id))).dedup

/-- Handler `GetTrainerClients`; the errors of `db.Query` and of `rows.Scan`
are returned as they are, and `rows.Err()` is not called: when the iteration
fails, the client ids read so far are returned without error. -/
def GetTrainerClients (rd : Reads) (db : Store) (trainerID : String) :
    Except Error GetTrainerClientsResponse :=
  match rd.query with
  | some err => .error err
  | none =>
    match scanRows rd id id (rd.rows (clientRows db trainerID)) 0 [] with
    | .error err => .error err
    | .ok clientIDs => .ok ⟨clientIDs⟩

/-- Result set of `SELECT a.id, a.client_id, a.slot_id, a.status, a.notes,
a.created_at, a.updated_at, av.day_of_week, av.start_time, av.end_time,
av.is_recurring FROM appointments a JOIN availability_slots av ON a.slot_id =
av.id WHERE a.trainer_id = $1`, each row kept as the pair of rows it was joined
from.  A row of `appointments` whose `trainer_id` is null is not selected. -/
def appointmentRows (db : Store) (trainerID : String) : List (AppointmentRow × SlotRow) :=
  (db.appointments.filter (fun a => a.trainer_id == some trainerID)).flatMap (fun a =>
    (db.availability_slots.filter (fun av => a.slot_id == av.id)).map (fun av => (a, av)))

/-- The body of the loop of `GetTrainerAppointments`: the appointment columns
go to `appt`, the four slot columns to `slot`, then `slot.TrainerID =
trainerID` and `appt.Slot = &slot`.  `appt.TrainerID`, `slot.ID`,
`slot.IsBooked` and `slot.CreatedAt` are not scanned and keep their zero
values. -/
def scanAppointmentWithSlot (trainerID : String) (row : AppointmentRow × SlotRow) :
    Appointment :=
  { ID := row.1.id, ClientID := row.1.client_id, TrainerID := "", SlotID := row.1.slot_id,
    Slot := some
      { ID := "", TrainerID := trainerID, DayOfWeek := row.2.day_of_week,
        StartTime := row.2.start_time, EndTime := row.2.end_time,
        IsRecurring := row.2.is_recurring, IsBooked := false, CreatedAt := 0 },
    Status := row.1.status, Notes := row.1.notes,
    CreatedAt := row.1.created_at, UpdatedAt := row.1.updated_at }

/-- Handler `GetTrainerAppointments`; the errors of `db.Query` and of
`rows.Scan` are wrapped with `fmt.Errorf`, and `rows.Err()` is not called:
when the iteration fails, the appointments read so far are returned without
error. -/
def GetTrainerAppointments (rd : Reads) (db : Store) (trainerID : String) :
    Except Error GetTrainerAppointmentsResponse :=
  match rd.query with
  | some err => .error ("failed to get trainer appointments: " ++ err)
  | none =>
    match scanRows rd (fun err => "failed to scan appointment: " ++ err)
        (scanAppointmentWithSlot trainerID) (rd.rows (appointmentRows db trainerID)) 0 [] with
    | .error err => .error err
    | .ok appointments => .ok ⟨appointments⟩

/-! ## Package `trainee`: the trainers of a trainee -/

/-- Row of table `trainers` of the database `trainee` (the floating point
column `rating` is left out). -/
structure trainee.TrainerRow where
  id : String
  user_id : Int
  specialization : List String
  years_of_experience : Int
deriving DecidableEq, Repr

/-- Row of table `trainer_trainee_relationships`. -/
structure trainee.RelationshipRow where
  trainer_id : Int
  trainee_id : String
  is_active : Bool
deriving DecidableEq, Repr

/-- The tables of the database `trainee` that `GetMyTrainers` reads. -/
structure trainee.Store where
  trainers : List trainee.TrainerRow
  trainer_trainee_relationships : List trainee.RelationshipRow
deriving DecidableEq, Repr

/-- Go struct `trainee.Trainer` (without `Rating`). -/
structure trainee.Trainer where
  ID : String
  UserID : Int
  Specialization : List String
  YearsOfExperience : Int
deriving DecidableEq, Repr

/-- Go struct `GetMyTrainersResponse`. -/
structure trainee.GetMyTrainersResponse where
  Trainers : List trainee.Trainer
deriving DecidableEq, Repr

/-- Result set of `SELECT tr.id, tr.user_id, tr.specialization,
tr.years_of_experience, tr.rating FROM trainers tr JOIN
trainer_trainee_relationships ttr ON tr.user_id = ttr.trainer_id WHERE
ttr.trainee_id = $1 AND ttr.is_active = true`. -/
def trainee.trainerRows (db : trainee.Store) (traineeID : String) : List trainee.TrainerRow :=
  db.trainers.flatMap (fun tr =>
    (db.trainer_trainee_relationships.filter
      (fun ttr => tr.user_id == ttr.trainer_id && ttr.trainee_id == traineeID
        && ttr.is_active)).map (fun _ => tr))

/-- The `Scan` of one row of that result set. -/
def trainee.scanTrainer (tr : trainee.TrainerRow) : trainee.Trainer :=
  { ID := tr.id, UserID := tr.user_id, Specialization := tr.specialization,
    YearsOfExperience := tr.years_of_experience }

/-- Handler `trainee.GetMyTrainers`; every error is turned into a message with
`fmt.Errorf`, and `rows.Err()` is checked after the loop. -/
def trainee.GetMyTrainers (rd : Reads) (db : trainee.Store) (traineeID : String) :
    Except Error trainee.GetMyTrainersResponse :=
  match rd.query with
  | some err => .error ("failed to query trainers: " ++ err)
  | none =>
    match scanRows rd (fun err => "failed to scan trainer: " ++ err) trainee.scanTrainer
        (rd.rows (trainee.trainerRows db traineeID)) 0 [] with
    | .error err => .error err
    | .ok trainers =>
      match rd.rowsErr with
      | some err => .error ("error iterating trainers: " ++ err)
      | none => .ok ⟨trainers⟩

/-- The loop of `ValidateClientBelongsToTrainer`: the first trainer whose `ID`
is `trainerID` returns `true`; the end of the list returns `false`. -/
def util.findTrainer (trainerID : String) : List trainee.Trainer → Bool
  | [] => false
  | trainer :: rest => if trainer.ID = trainerID then true else util.findTrainer trainerID rest

/-- Function `util.ValidateClientBelongsToTrainer`: the Go pair `(bool, error)`. -/
def util.ValidateClientBelongsToTrainer (rd : Reads) (db : trainee.Store)
    (clientID trainerID : String) : Bool × Option Error :=
  match trainee.GetMyTrainers rd db clientID with
  | .error err => (false, some ("failed to get trainers for client: " ++ err))
  | .ok trainers => (util.findTrainer trainerID trainers.Trainers, none)

/-! ## Package `admin`: registration, login and the token -/

/-- Row of table `users`. -/
structure admin.UserRow where
  id : Int
  username : String
  email : String
  password_hash : String
  created_at : Nat
  updated_at : Nat
deriving DecidableEq, Repr

/-- Row of table `user_details`; `postal_code` is given no value by the
`INSERT` of `Register`. -/
structure admin.UserDetailRow where
  id : Int
  user_id : Int
  fullname : String
  address : Option String
  postal_code : Option String
  province_id : Option Int
  city_id : Option Int
  district_id : Option Int
  created_at : Nat
  updated_at : Nat
deriving DecidableEq, Repr

/-- Committed content of the database `admin`. -/
structure admin.Store where
  users : List admin.UserRow
  user_details : List admin.UserDetailRow
deriving DecidableEq, Repr

/-- Go struct `User`. -/
structure admin.User where
  ID : Int
  Username : String
  Email : String
  CreatedAt : Nat
  UpdatedAt : Nat
deriving DecidableEq, Repr

/-- Go struct `AuthResponse`; the pointer `User` is never nil in a returned
response. -/
structure admin.AuthResponse where
  Token : String
  User : admin.User
deriving DecidableEq, Repr

/-- Go struct `LoginParams`. -/
structure admin.LoginParams where
  Username : String
  Password : String
deriving DecidableEq, Repr

/-- Go struct `RegisterParams`. -/
structure admin.RegisterParams where
  Username : String
  Email : String
  Password : String
  Fullname : String
  Address : Option String
  ProvinceID : Option Int
  CityID : Option Int
  DistrictID : Option Int
deriving DecidableEq, Repr

/-- What `Register` and `Login` take from outside the program: the library
function `hex.EncodeToString(sha256.Sum256(...))`, the ids the storage layer
generates for the inserted `users` and `user_details` rows, and the two
readings of `time.Now()`. -/
structure admin.World where
  sha256hex : String → String
  userID : Int
  detailID : Int
  createdNow : Nat
  updatedNow : Nat

/-- Value returned by a handler of package `admin`, and committed store after
the call. -/
structure admin.Outcome (α : Type) where
  result : Except Error α
  store : admin.Store

/-- Go's conversion `string(n)` of an `int`: the UTF-8 encoding of the code
point `n`; a value that is no valid code point (negative, a surrogate, above
`0x10FFFF`) is converted to `"\uFFFD"`.  A string is the list of its code
points. -/
def admin.stringOfInt (n : Int) : String :=
  if 0 ≤ n ∧ n.toNat.isValidChar then String.singleton (Char.ofNat n.toNat)
  else String.singleton (Char.ofNat 0xFFFD)

/-- Function `generateToken`. -/
def admin.generateToken (userID : Int) : String :=
  "generated-jwt-token-for-user-" ++ admin.stringOfInt userID

/-- Function `hashPassword`. -/
def admin.hashPassword (w : admin.World) (password : String) : String :=
  w.sha256hex password

/-- Function `verifyPassword`. -/
def admin.verifyPassword (w : admin.World) (password hashedPassword : String) : Bool :=
  admin.hashPassword w password == hashedPassword

/-- Handler `Register`: statement `0` is the `INSERT INTO users ... RETURNING
id`, statement `1` the `INSERT INTO user_details`. -/
def admin.Register (st : Storage) (w : admin.World) (db : admin.Store)
    (params : admin.RegisterParams) : admin.Outcome admin.AuthResponse :=
  let hashedPassword := admin.hashPassword w params.Password
  match st.begin with
  | some err => ⟨.error err, db⟩
  | none =>
    match st.exec 0 with
    | some err => ⟨.error err, db⟩
    | none =>
      let userID := w.userID
      let w1 : admin.Store :=
        { db with users := db.users ++
            [⟨userID, params.Username, params.Email, hashedPassword, st.now, st.now⟩] }
      match st.exec 1 with
      | some err => ⟨.error err, db⟩
      | none =>
        let w2 : admin.Store :=
          { w1 with user_details := w1.user_details ++
              [⟨w.detailID, userID, params.Fullname, params.Address, none, params.ProvinceID,
                params.CityID, params.DistrictID, st.now, st.now⟩] }
        match st.commit with
        | some err => ⟨.error err, db⟩
        | none =>
          ⟨.ok ⟨admin.generateToken userID,
            ⟨userID, params.Username, params.Email, w.createdNow, w.updatedNow⟩⟩, w2⟩

/-- Handler `Login`: the `QueryRow(...).Scan(...)` fails when the query fails,
when no row has the username, or when the scan fails; every such failure and a
wrong password give the error `invalid credentials`. -/
def admin.Login (rd : Reads) (w : admin.World) (db : admin.Store)
    (params : admin.LoginParams) : Except Error admin.AuthResponse :=
  match rd.query with
  | some _ => .error "invalid credentials"
  | none =>
    match (db.users.filter (fun u => u.username == params.Username)).head? with
    | none => .error "invalid credentials"
    | some row =>
      match rd.scan 0 with
      | some _ => .error "invalid credentials"
      | none =>
        if admin.verifyPassword w params.Password row.password_hash then
          .ok ⟨admin.generateToken row.id,
            ⟨row.id, row.username, row.email, row.created_at, row.updated_at⟩⟩
        else .error "invalid credentials"

/-! ## Vocabulary of the statements proved below -/

/-- The error `e` is one the storage layer gave to `Begin`, to one of the first
`n` statements or to `Commit`. -/
def Storage.reports (st : Storage) (n : Nat) (e : Error) : Prop :=
  st.begin = some e ∨ (∃ i, i < n ∧ st.exec i = some e) ∨ st.commit = some e

/-- The storage layer rejects `Begin`, one of the first `n` statements or
`Commit`. -/
def Storage.rejects (st : Storage) (n : Nat) : Prop :=
  st.begin ≠ none ∨ (∃ i, i < n ∧ st.exec i ≠ none) ∨ st.commit ≠ none

instance (st : Storage) (n : Nat) : Decidable (st.rejects n) := by
  unfold Storage.rejects; infer_instance

/-- The store in which the slots of `req.TrainerID` are replaced by the
request's: the state `SetAvailability` builds inside its transaction. -/
def replaceSlots (now : Nat) (db : Store) (req : SetAvailabilityRequest) : Store :=
  { db with availability_slots :=
      db.availability_slots.filter (fun r => r.trainer_id != req.TrainerID)
        ++ req.Slots.map (slotRow now req.TrainerID) }

/-- The state `CreateAppointment` builds inside its transaction. -/
def bookSlot (st : Storage) (db : Store) (req : CreateAppointmentRequest) : Store :=
  markBooked (insertAppointment db (appointmentRow st req.ClientID req.SlotID)) req.SlotID

/-- The fields on which a returned slot is compared with a submitted one:
id, day of week, start time, end time, recurrence flag, booked flag. -/
def slotKey (s : AvailabilitySlot) : String × Int × String × String × Bool × Bool :=
  (s.ID, s.DayOfWeek, s.StartTime, s.EndTime, s.IsRecurring, s.IsBooked)

/-- The same fields of a stored row. -/
def rowKey (r : SlotRow) : String × Int × String × String × Bool × Bool :=
  (r.id, r.day_of_week, r.start_time, r.end_time, r.is_recurring, r.is_booked)

/-- A slot is valid when its day of week is in `[0, 6]` and its start time is
before its end time (times are compared as strings, character by character,
which is the order of time for the `HH:MM` format). -/
def validSlot (s : AvailabilitySlot) : Prop :=
  0 ≤ s.DayOfWeek ∧ s.DayOfWeek ≤ 6 ∧ s.StartTime.data < s.EndTime.data

instance (s : AvailabilitySlot) : Decidable (validSlot s) := by
  unfold validSlot; infer_instance

/-- Number of appointment rows whose `slot_id` is `slotID`. -/
def refCount (db : Store) (slotID : String) : Nat :=
  db.appointments.countP (fun a => a.slot_id == slotID)

/-- Slot/appointment consistency: a booked slot is referenced by exactly one
appointment row, an open slot by none. -/
def consistent (db : Store) : Prop :=
  ∀ r, r ∈ db.availability_slots → refCount db r.id = if r.is_booked then 1 else 0

instance (db : Store) : Decidable (consistent db) := by
  unfold consistent; infer_instance

/-- One committed step of the system: a call of `SetAvailability` or of
`CreateAppointment`, whatever the storage layer answers. -/
inductive Step : Store → Store → Prop
  | setAvailability (st : Storage) (db : Store) (req : SetAvailabilityRequest) :
      Step db (SetAvailability st db req).store
  | createAppointment (st : Storage) (db : Store) (req : CreateAppointmentRequest) :
      Step db (CreateAppointment st db req).store

/-- The columns of an appointment row that the storage layer does not
generate: client, trainer, slot, status, notes. -/
def appointmentKey (a : AppointmentRow) :
    String × Option String × String × String × Option String :=
  (a.client_id, a.trainer_id, a.slot_id, a.status, a.notes)

/-- The columns of an appointment row that `GetTrainerAppointments` selects. -/
def selectedColumns (a : AppointmentRow) :
    String × String × String × String × Option String × Nat × Nat :=
  (a.id, a.client_id, a.slot_id, a.status, a.notes, a.created_at, a.updated_at)

/-- The same fields of a returned appointment. -/
def returnedColumns (a : Appointment) :
    String × String × String × String × Option String × Nat × Nat :=
  (a.ID, a.ClientID, a.SlotID, a.Status, a.Notes, a.CreatedAt, a.UpdatedAt)

/-- A call succeeded. -/
def succeeded {α : Type} (r : Except Error α) : Prop := ∃ a, r = .ok a

/-- The storage layer that gives the same answers to `Begin`, to every
statement and to `Commit`, and generates another timestamp and another id. -/
def Storage.regenerate (st : Storage) (now : Nat) (newID : String) : Storage :=
  { st with now := now, newID := newID }

/-- The fields of a returned appointment that the storage layer does not
generate: client, trainer, slot id, slot snapshot, status, notes. -/
def appointmentValue (a : Appointment) :
    String × String × String × Option AvailabilitySlot × String × Option String :=
  (a.ClientID, a.TrainerID, a.SlotID, a.Slot, a.Status, a.Notes)

/-! ## Inputs used to exercise the statements -/

/-- A store in which trainer `T` has one booked slot `old`, booked by client
`c1`, and trainer `U` one open slot `u1`. -/
def sampleStore : Store :=
  { trainers := [],
    availability_slots :=
      [⟨"old", "T", 1, "09:00", "10:00", false, true, 5⟩,
       ⟨"u1", "U", 2, "14:00", "15:00", true, false, 5⟩],
    appointments := [⟨"a1", "c1", none, "old", "scheduled", none, 5, 5⟩] }

/-- A valid slot: Monday, 09:00 to 10:00. -/
def goodSlot : AvailabilitySlot := ⟨"s1", "", 1, "09:00", "10:00", true, false, 0⟩

/-- An invalid slot: day of week 9, and it starts after it ends. -/
def badSlot : AvailabilitySlot := ⟨"s2", "", 9, "10:00", "09:00", true, false, 0⟩

/-- A slot submitted with its booked flag already set. -/
def bookedSlot : AvailabilitySlot := ⟨"s3", "", 3, "11:00", "12:00", false, true, 0⟩

/-- A second valid slot: Tuesday, 16:00 to 17:00. -/
def lateSlot : AvailabilitySlot := ⟨"s4", "", 2, "16:00", "17:00", false, false, 0⟩

/-- A slot submitted under the id `old`, which a slot of another trainer
already has. -/
def clashSlot : AvailabilitySlot := ⟨"old", "", 4, "18:00", "19:00", false, false, 0⟩

/-- A read whose query and scans succeed and whose iteration fails after `k`
rows were delivered. -/
def Reads.stoppingAfter (k : Nat) : Reads :=
  { query := none, scan := fun _ => none, rowsErr := some "connection lost", delivered := k }

/-- A storage layer that accepts everything but the statement number `k`. -/
def Storage.failingAt (k : Nat) (now : Nat) (newID : String) : Storage :=
  { begin := none, exec := fun i => if i = k then some "write failed" else none,
    commit := none, now := now, newID := newID }

/-- A store of the `trainee` database: trainee `c1` has an active relationship
with the trainer of user `1` and an inactive one with the trainer of user `2`. -/
def trainee.sampleStore : trainee.Store :=
  { trainers := [⟨"t1", 1, ["strength"], 3⟩, ⟨"t2", 2, [], 8⟩],
    trainer_trainee_relationships := [⟨1, "c1", true⟩, ⟨2, "c1", false⟩] }

/-- A store in which the appointment rows carry a trainer id. -/
def linkedStore : Store :=
  { trainers := [],
    availability_slots :=
      [⟨"old", "T", 1, "09:00", "10:00", false, true, 5⟩,
       ⟨"u1", "U", 2, "14:00", "15:00", true, false, 5⟩],
    appointments :=
      [⟨"a1", "c1", some "T", "old", "scheduled", none, 5, 5⟩,
       ⟨"a2", "c2", some "T", "gone", "scheduled", none, 6, 6⟩,
       ⟨"a3", "c3", none, "old", "cancelled", some "n", 6, 6⟩] }

/-- A world whose hash is the identity, generating the user id `uid`. -/
def admin.sampleWorld (uid : Int) : admin.World :=
  { sha256hex := fun p => p, userID := uid, detailID := 1, createdNow := 3, updatedNow := 4 }

/-- A `users` table with one user, `ann`, whose id is `uid`. -/
def admin.sampleStore (uid : Int) : admin.Store :=
  { users := [⟨uid, "ann", "ann@x.org", "pw", 1, 1⟩], user_details := [] }

/-- The parameters of a registration of `bob`. -/
def admin.sampleParams : admin.RegisterParams :=
  ⟨"bob", "bob@x.org", "pw", "Bob", none, none, none, none⟩

/-- A store without appointments: trainer `T` owns the open slot `s1`. -/
def emptyBook : Store :=
  { trainers := [],
    availability_slots := [⟨"s1", "T", 1, "09:00", "10:00", true, false, 5⟩],
    appointments := [] }

/-! ## The transaction of `SetAvailability` -/

theorem Storage.rejects_iff (st : Storage) (n : Nat) : st.rejects n ↔ ¬ st.accepts n := by
  unfold Storage.rejects Storage.accepts
  constructor
  · rintro (h | ⟨i, hi, h⟩ | h) ⟨hb, he, hc⟩
    · exact h hb
    · exact h (he i hi)
    · exact h hc
  · intro h
    by_cases hb : st.begin = none
    · by_cases he : ∀ i, i < n → st.exec i = none
      · by_cases hc : st.commit = none
        · exact absurd ⟨hb, he, hc⟩ h
        · exact Or.inr (Or.inr hc)
      · push_neg at he
        exact Or.inr (Or.inl he)
    · exact Or.inl hb

theorem insertSlots_ok (st : Storage) (T : String) :
    ∀ (L : List AvailabilitySlot) (n : Nat) (w : Store),
      (∀ i, i < L.length → st.exec (n + i) = none) →
      insertSlots st T L n w =
        .ok { w with availability_slots := w.availability_slots ++ L.map (slotRow st.now T) }
  | [], _, w, _ => by simp [insertSlots]
  | s :: rest, n, w, h => by
    have h0 : st.exec n = none := by simpa using h 0 (by simp)
    have hrest : ∀ i, i < rest.length → st.exec (n + 1 + i) = none := by
      intro i hi
      have := h (i + 1) (by simpa using hi)
      rwa [show n + 1 + i = n + (i + 1) by omega]
    simp [insertSlots, h0, insertSlots_ok st T rest (n + 1) _ hrest, insertSlot]

theorem insertSlots_error (st : Storage) (T : String) :
    ∀ (L : List AvailabilitySlot) (n : Nat) (w : Store),
      (¬ ∀ i, i < L.length → st.exec (n + i) = none) →
      ∃ e, insertSlots st T L n w = .error e ∧ ∃ i, i < L.length ∧ st.exec (n + i) = some e
  | [], _, _, h => by simp at h
  | s :: rest, n, w, h => by
    cases h0 : st.exec n with
    | some e => exact ⟨e, by simp [insertSlots, h0], 0, by simp, by simpa using h0⟩
    | none =>
      have hrest : ¬ ∀ i, i < rest.length → st.exec (n + 1 + i) = none := by
        intro hall
        apply h
        intro i hi
        cases i with
        | zero => simpa using h0
        | succ j =>
          have := hall j (by simpa using hi)
          rwa [show n + 1 + j = n + (j + 1) by omega] at this
      obtain ⟨e, he, i, hi, hie⟩ :=
        insertSlots_error st T rest (n + 1) (insertSlot w st.now T s) hrest
      refine ⟨e, by simp [insertSlots, h0, he], i + 1, by simpa using hi, ?_⟩
      rwa [show n + (i + 1) = n + 1 + i by omega]

/-- When the storage layer accepts every statement, `SetAvailability` returns
the submitted slots and commits the replacement. -/
theorem SetAvailability_of_accepts (st : Storage) (db : Store) (req : SetAvailabilityRequest)
    (h : st.accepts (req.Slots.length + 1)) :
    SetAvailability st db req = ⟨.ok ⟨req.Slots⟩, replaceSlots st.now db req⟩ := by
  obtain ⟨hb, he, hc⟩ := h
  have h0 : st.exec 0 = none := he 0 (by omega)
  have hins := insertSlots_ok st req.TrainerID req.Slots 1 (deleteSlots db req.TrainerID)
    (fun i hi => by rw [Nat.add_comm]; exact he (i + 1) (by omega))
  simp only [SetAvailability, hb, h0, hins, hc]
  simp [replaceSlots, deleteSlots]

/-- When the storage layer rejects `Begin`, a statement or `Commit`,
`SetAvailability` returns that error and commits nothing. -/
theorem SetAvailability_of_not_accepts (st : Storage) (db : Store) (req : SetAvailabilityRequest)
    (h : ¬ st.accepts (req.Slots.length + 1)) :
    ∃ e, SetAvailability st db req = ⟨.error e, db⟩ ∧ st.reports (req.Slots.length + 1) e := by
  unfold SetAvailability Storage.reports
  cases hb : st.begin with
  | some e => exact ⟨e, rfl, Or.inl rfl⟩
  | none =>
    cases h0 : st.exec 0 with
    | some e => exact ⟨e, rfl, Or.inr (Or.inl ⟨0, by omega, h0⟩)⟩
    | none =>
      by_cases hall : ∀ i, i < req.Slots.length → st.exec (1 + i) = none
      · have hins :=
          insertSlots_ok st req.TrainerID req.Slots 1 (deleteSlots db req.TrainerID) hall
        cases hc : st.commit with
        | some e => exact ⟨e, by simp [hins], Or.inr (Or.inr rfl)⟩
        | none =>
          exfalso
          apply h
          refine ⟨hb, ?_, hc⟩
          intro i hi
          cases i with
          | zero => exact h0
          | succ j =>
            have := hall j (by omega)
            rwa [Nat.add_comm] at this
      · obtain ⟨e, he, i, hi, hie⟩ :=
          insertSlots_error st req.TrainerID req.Slots 1 (deleteSlots db req.TrainerID) hall
        exact ⟨e, by simp [he], Or.inr (Or.inl ⟨1 + i, by omega, hie⟩)⟩

/-- A successful `SetAvailability` was accepted by the storage layer. -/
theorem SetAvailability_accepts_of_ok (st : Storage) (db : Store) (req : SetAvailabilityRequest)
    (resp : SetAvailabilityResponse) (h : (SetAvailability st db req).result = .ok resp) :
    st.accepts (req.Slots.length + 1) := by
  by_contra hna
  obtain ⟨e, he, _⟩ := SetAvailability_of_not_accepts st db req hna
  rw [he] at h
  cases h

/-- The rows `GetTrainerAvailability` reads for `T` after a replacement are the
rows written for the submitted slots. -/
theorem filter_replaceSlots (now : Nat) (db : Store) (req : SetAvailabilityRequest) :
    (replaceSlots now db req).availability_slots.filter (fun r => r.trainer_id == req.TrainerID)
      = req.Slots.map (slotRow now req.TrainerID) := by
  simp only [replaceSlots, List.filter_append, List.filter_filter]
  have h1 : db.availability_slots.filter
      (fun r => (r.trainer_id == req.TrainerID) && (r.trainer_id != req.TrainerID)) = [] := by
    apply List.filter_eq_nil_iff.mpr
    intro r _
    simp
  have h2 : (req.Slots.map (slotRow now req.TrainerID)).filter
      (fun r => r.trainer_id == req.TrainerID) = req.Slots.map (slotRow now req.TrainerID) := by
    apply List.filter_eq_self.mpr
    intro r hr
    obtain ⟨s, _, rfl⟩ := List.mem_map.mp hr
    simp [slotRow]
  rw [h1, h2, List.nil_append]

theorem rowKey_slotRow (now : Nat) (T : String) (s : AvailabilitySlot) :
    rowKey (slotRow now T s) = slotKey s := rfl

theorem slotKey_scanSlot (r : SlotRow) : slotKey (scanSlot r) = rowKey r := rfl

/-! ## Reading a result set -/

/-- A read that returns has scanned every row of the result set, in order. -/
theorem scanRows_eq_of_ok {ρ α : Type} (rd : Reads) (wrap : Error → Error) (f : ρ → α) :
    ∀ (rows : List ρ) (n : Nat) (acc l : List α),
      scanRows rd wrap f rows n acc = .ok l → l = acc ++ rows.map f
  | [], _, acc, l, h => by
    simp only [scanRows, Except.ok.injEq] at h
    simp [h]
  | row :: rest, n, acc, l, h => by
    cases hs : rd.scan n with
    | some e => simp [scanRows, hs] at h
    | none =>
      simp only [scanRows, hs] at h
      have := scanRows_eq_of_ok rd wrap f rest (n + 1) (acc ++ [f row]) l h
      simpa using this

/-- When no `Scan` fails, the read returns every row of the result set. -/
theorem scanRows_of_no_error {ρ α : Type} (rd : Reads) (wrap : Error → Error) (f : ρ → α)
    (hscan : ∀ i, rd.scan i = none) :
    ∀ (rows : List ρ) (n : Nat) (acc : List α),
      scanRows rd wrap f rows n acc = .ok (acc ++ rows.map f)
  | [], _, acc => by simp [scanRows]
  | row :: rest, n, acc => by
    simp [scanRows, hscan n, scanRows_of_no_error rd wrap f hscan rest (n + 1)]

theorem Reads.rows_of_complete {ρ : Type} (rd : Reads) (h : rd.rowsErr = none)
    (l : List ρ) : rd.rows l = l := by
  simp [Reads.rows, h]

theorem Reads.rows_nil {ρ : Type} (rd : Reads) : rd.rows ([] : List ρ) = [] := by
  unfold Reads.rows
  cases rd.rowsErr <;> simp

/-- The rows delivered are rows of the result set. -/
theorem Reads.mem_of_mem_rows {ρ : Type} (rd : Reads) (l : List ρ) (x : ρ)
    (h : x ∈ rd.rows l) : x ∈ l := by
  unfold Reads.rows at h
  cases hr : rd.rowsErr with
  | none => simpa [hr] using h
  | some e =>
    simp only [hr] at h
    exact List.mem_of_mem_take h

theorem GetTrainerAvailability_eq_of_ok (rd : Reads) (db : Store) (T : String)
    (resp : GetTrainerAvailabilityResponse) (h : GetTrainerAvailability rd db T = .ok resp) :
    resp.Slots = (rd.rows (slotRows db T)).map scanSlot := by
  unfold GetTrainerAvailability at h
  cases hq : rd.query with
  | some e => simp [hq] at h
  | none =>
    simp only [hq] at h
    cases hs : scanRows rd id scanSlot (rd.rows (slotRows db T)) 0 [] with
    | error e => simp [hs] at h
    | ok l =>
      simp only [hs, Except.ok.injEq] at h
      have := scanRows_eq_of_ok rd _ _ _ 0 [] l hs
      rw [← h]
      simpa using this

theorem GetTrainerAvailability_of_no_error (db : Store) (T : String) :
    GetTrainerAvailability Reads.ok db T = .ok ⟨(slotRows db T).map scanSlot⟩ := by
  have := scanRows_of_no_error Reads.ok id scanSlot (fun _ => rfl) (slotRows db T) 0 []
  simp only [GetTrainerAvailability, Reads.ok, Reads.rows] at this ⊢
  rw [this]
  simp

/-! ## C1 to C3: replacing the availability of a trainer -/

/-- After a successful `SetAvailability` for trainer `T` with slot list `L`,
a `GetTrainerAvailability T` that returns gives only slots of `L` (compared on
id, day of week, start time, end time, recurrence flag and booked flag), so
nothing that was stored for `T` before and is not in `L`; when the iteration
over the rows did not fail it gives exactly the slots of `L`, up to order; and
it returns when the storage layer reports no error. -/
theorem SetAvailability_then_complete_read (st : Storage) (db : Store) (T : String)
    (L : List AvailabilitySlot) (resp : SetAvailabilityResponse)
    (h : (SetAvailability st db ⟨T, L⟩).result = .ok resp) :
    (∃ got, GetTrainerAvailability Reads.ok (SetAvailability st db ⟨T, L⟩).store T = .ok got) ∧
    ∀ rd got, GetTrainerAvailability rd (SetAvailability st db ⟨T, L⟩).store T = .ok got →
      (∀ k, k ∈ got.Slots.map slotKey → k ∈ L.map slotKey) ∧
      (rd.rowsErr = none → (got.Slots.map slotKey).Perm (L.map slotKey)) := by
  have hacc := SetAvailability_accepts_of_ok st db ⟨T, L⟩ resp h
  rw [SetAvailability_of_accepts st db ⟨T, L⟩ hacc]
  have hf : slotRows (replaceSlots st.now db ⟨T, L⟩) T = L.map (slotRow st.now T) :=
    filter_replaceSlots st.now db ⟨T, L⟩
  have hkeys : ((L.map (slotRow st.now T)).map scanSlot).map slotKey = L.map slotKey := by
    simp [List.map_map, Function.comp_def, slotKey_scanSlot, rowKey_slotRow]
  refine ⟨⟨_, GetTrainerAvailability_of_no_error _ T⟩, ?_⟩
  intro rd got hgot
  have hgot1 := GetTrainerAvailability_eq_of_ok rd _ T got hgot
  simp only at hgot1
  rw [hf] at hgot1
  constructor
  · intro k hk
    rw [hgot1] at hk
    obtain ⟨x, hx, rfl⟩ := List.mem_map.mp hk
    obtain ⟨r, hr, rfl⟩ := List.mem_map.mp hx
    have hr1 := rd.mem_of_mem_rows _ r hr
    obtain ⟨s, hs, rfl⟩ := List.mem_map.mp hr1
    exact List.mem_map.mpr ⟨s, hs, rfl⟩
  · intro hiter
    rw [hgot1, rd.rows_of_complete hiter, hkeys]

/-- C1, the code at a failing input: trainer `T` replaces its slots by the two
valid slots `goodSlot` and `lateSlot`, whose ids differ, and the call succeeds.
A `GetTrainerAvailability T` whose iteration fails after the first row returns,
without error, `goodSlot` alone: not the submitted set, which a read that is
not interrupted returns. -/
theorem SetAvailability_then_truncated_read :
    (validSlot goodSlot ∧ validSlot lateSlot ∧ goodSlot.ID ≠ lateSlot.ID) ∧
    (SetAvailability (Storage.ok 7 "") sampleStore ⟨"T", [goodSlot, lateSlot]⟩).result
      = .ok ⟨[goodSlot, lateSlot]⟩ ∧
    GetTrainerAvailability (Reads.stoppingAfter 1)
        (SetAvailability (Storage.ok 7 "") sampleStore ⟨"T", [goodSlot, lateSlot]⟩).store "T"
      = .ok ⟨[⟨"s1", "", 1, "09:00", "10:00", true, false, 7⟩]⟩ ∧
    GetTrainerAvailability Reads.ok
        (SetAvailability (Storage.ok 7 "") sampleStore ⟨"T", [goodSlot, lateSlot]⟩).store "T"
      = .ok ⟨[⟨"s1", "", 1, "09:00", "10:00", true, false, 7⟩,
              ⟨"s4", "", 2, "16:00", "17:00", false, false, 7⟩]⟩ :=
  ⟨⟨by decide, by decide, by decide⟩, rfl, rfl, rfl⟩

/-- C2, as stated, fails: the storage layer accepting every statement, a
request whose only slot is invalid (day of week 9, start after end) succeeds,
and the slots `GetTrainerAvailability` returns for the trainer are no longer
those of before the call. -/
theorem SetAvailability_stores_invalid_slot :
    ¬ validSlot badSlot ∧
    (SetAvailability (Storage.ok 7 "") sampleStore ⟨"T", [badSlot]⟩).result
      = .ok ⟨[badSlot]⟩ ∧
    GetTrainerAvailability Reads.ok sampleStore "T"
      = .ok ⟨[⟨"old", "", 1, "09:00", "10:00", false, true, 5⟩]⟩ ∧
    GetTrainerAvailability Reads.ok
        (SetAvailability (Storage.ok 7 "") sampleStore ⟨"T", [badSlot]⟩).store "T"
      = .ok ⟨[⟨"s2", "", 9, "10:00", "09:00", true, false, 7⟩]⟩ :=
  ⟨by decide, rfl, rfl, rfl⟩

/-- C2, amended: `SetAvailability` validates nothing.  For a slot list with an
invalid slot, the call fails only when the storage layer rejects `Begin`, a
statement or `Commit`; it then returns the storage layer's error and the store,
hence what `GetTrainerAvailability` returns for any trainer, is the one of
before the call.  When the storage layer accepts every statement the call
succeeds and the invalid slot is stored for the trainer. -/
theorem SetAvailability_no_validation (st : Storage) (db : Store) (req : SetAvailabilityRequest)
    (hinv : ∃ s, s ∈ req.Slots ∧ ¬ validSlot s) :
    (st.accepts (req.Slots.length + 1) →
      (SetAvailability st db req).result = .ok ⟨req.Slots⟩ ∧
      ∃ s, s ∈ req.Slots ∧ ¬ validSlot s ∧
        slotRow st.now req.TrainerID s ∈ (SetAvailability st db req).store.availability_slots) ∧
    (st.rejects (req.Slots.length + 1) →
      ∃ e, (SetAvailability st db req).result = .error e ∧
        st.reports (req.Slots.length + 1) e ∧
        (SetAvailability st db req).store = db ∧
        ∀ rd T, GetTrainerAvailability rd (SetAvailability st db req).store T
          = GetTrainerAvailability rd db T) := by
  constructor
  · intro hacc
    rw [SetAvailability_of_accepts st db req hacc]
    obtain ⟨s, hs, hbad⟩ := hinv
    refine ⟨rfl, s, hs, hbad, ?_⟩
    simp only [replaceSlots, List.mem_append, List.mem_map]
    exact Or.inr ⟨s, hs, rfl⟩
  · intro hrej
    obtain ⟨e, he, hrep⟩ :=
      SetAvailability_of_not_accepts st db req ((st.rejects_iff _).mp hrej)
    rw [he]
    exact ⟨e, rfl, hrep, rfl, fun _ _ => rfl⟩

/-- C2, amended, at a concrete input: the invalid slot is stored when the
storage layer accepts the three statements. -/
theorem SetAvailability_no_validation_witness :
    (SetAvailability (Storage.ok 7 "") sampleStore ⟨"T", [goodSlot, badSlot]⟩).result
      = .ok ⟨[goodSlot, badSlot]⟩ ∧
    ∃ s, s ∈ [goodSlot, badSlot] ∧ ¬ validSlot s ∧
      slotRow 7 "T" s ∈
        (SetAvailability (Storage.ok 7 "") sampleStore
          ⟨"T", [goodSlot, badSlot]⟩).store.availability_slots :=
  (SetAvailability_no_validation (Storage.ok 7 "") sampleStore ⟨"T", [goodSlot, badSlot]⟩
    ⟨badSlot, by simp, by decide⟩).1 (by decide)

/-- C3: `SetAvailability` is atomic.  If the storage layer rejects `Begin`, the
`DELETE`, one of the `INSERT`s or `Commit`, the call returns an error and the
committed store is the store of before the call.  In every case the committed
store is either the store of before the call or, the call having succeeded, the
store with the whole replacement: a state with the old slots deleted and only
some of the new ones inserted is never committed. -/
theorem SetAvailability_atomic (st : Storage) (db : Store) (req : SetAvailabilityRequest) :
    (st.rejects (req.Slots.length + 1) →
      (∃ e, (SetAvailability st db req).result = .error e) ∧
      (SetAvailability st db req).store = db) ∧
    ((SetAvailability st db req).store = db ∨
      ((SetAvailability st db req).result = .ok ⟨req.Slots⟩ ∧
       (SetAvailability st db req).store = replaceSlots st.now db req)) := by
  by_cases hacc : st.accepts (req.Slots.length + 1)
  · rw [SetAvailability_of_accepts st db req hacc]
    exact ⟨fun hrej => absurd hacc ((st.rejects_iff _).mp hrej), Or.inr ⟨rfl, rfl⟩⟩
  · obtain ⟨e, he, _⟩ := SetAvailability_of_not_accepts st db req hacc
    rw [he]
    exact ⟨fun _ => ⟨⟨e, rfl⟩, rfl⟩, Or.inl rfl⟩

/-- C3, at a concrete input: the `INSERT` of the second slot is rejected, after
the `DELETE` and the first `INSERT` were accepted; nothing is committed. -/
theorem SetAvailability_atomic_witness :
    (Storage.failingAt 2 7 "").rejects 3 ∧
    (∃ e, (SetAvailability (Storage.failingAt 2 7 "") sampleStore
        ⟨"T", [goodSlot, badSlot]⟩).result = .error e) ∧
    (SetAvailability (Storage.failingAt 2 7 "") sampleStore
        ⟨"T", [goodSlot, badSlot]⟩).store = sampleStore :=
  ⟨by decide, (SetAvailability_atomic (Storage.failingAt 2 7 "") sampleStore
    ⟨"T", [goodSlot, badSlot]⟩).1 (by decide)⟩

/-! ## The transaction of `CreateAppointment` -/

/-- When the storage layer accepts both statements, `CreateAppointment` returns
the inserted appointment and commits the insert together with the update. -/
theorem CreateAppointment_of_accepts (st : Storage) (db : Store) (req : CreateAppointmentRequest)
    (h : st.accepts 2) :
    CreateAppointment st db req =
      ⟨.ok (scanAppointment (appointmentRow st req.ClientID req.SlotID)), bookSlot st db req⟩ := by
  obtain ⟨hb, he, hc⟩ := h
  simp [CreateAppointment, hb, he 0 (by omega), he 1 (by omega), hc, bookSlot]

/-- When the storage layer rejects `Begin`, a statement or `Commit`,
`CreateAppointment` returns that error and commits nothing. -/
theorem CreateAppointment_of_not_accepts (st : Storage) (db : Store)
    (req : CreateAppointmentRequest) (h : ¬ st.accepts 2) :
    ∃ e, CreateAppointment st db req = ⟨.error e, db⟩ ∧ st.reports 2 e := by
  unfold CreateAppointment Storage.reports
  cases hb : st.begin with
  | some e => exact ⟨e, rfl, Or.inl rfl⟩
  | none =>
    cases h0 : st.exec 0 with
    | some e => exact ⟨e, rfl, Or.inr (Or.inl ⟨0, by omega, h0⟩)⟩
    | none =>
      cases h1 : st.exec 1 with
      | some e => exact ⟨e, rfl, Or.inr (Or.inl ⟨1, by omega, h1⟩)⟩
      | none =>
        cases hc : st.commit with
        | some e => exact ⟨e, rfl, Or.inr (Or.inr rfl)⟩
        | none =>
          exfalso
          apply h
          refine ⟨hb, ?_, hc⟩
          intro i hi
          have : i = 0 ∨ i = 1 := by omega
          rcases this with rfl | rfl
          · exact h0
          · exact h1

/-- A successful `CreateAppointment` was accepted by the storage layer. -/
theorem CreateAppointment_accepts_of_ok (st : Storage) (db : Store)
    (req : CreateAppointmentRequest) (a : Appointment)
    (h : (CreateAppointment st db req).result = .ok a) : st.accepts 2 := by
  by_contra hna
  obtain ⟨e, he, _⟩ := CreateAppointment_of_not_accepts st db req hna
  rw [he] at h
  cases h

theorem bookSlot_appointments (st : Storage) (db : Store) (req : CreateAppointmentRequest) :
    (bookSlot st db req).appointments
      = db.appointments ++ [appointmentRow st req.ClientID req.SlotID] := rfl

theorem bookSlot_availability_slots (st : Storage) (db : Store) (req : CreateAppointmentRequest) :
    (bookSlot st db req).availability_slots
      = db.availability_slots.map
          (fun r => if r.id = req.SlotID then { r with is_booked := true } else r) := rfl

theorem bookSlot_trainers (st : Storage) (db : Store) (req : CreateAppointmentRequest) :
    (bookSlot st db req).trainers = db.trainers := rfl

/-- Booking slot `S` adds one reference to `S` and none to another slot id. -/
theorem refCount_bookSlot (st : Storage) (db : Store) (req : CreateAppointmentRequest)
    (S : String) :
    refCount (bookSlot st db req) S = refCount db S + if req.SlotID = S then 1 else 0 := by
  simp only [refCount, bookSlot_appointments, List.countP_append, List.countP_cons,
    List.countP_nil, appointmentRow, beq_iff_eq]
  simp

/-- After booking `S`, every slot row with id `S` is booked. -/
theorem bookSlot_booked (st : Storage) (db : Store) (req : CreateAppointmentRequest) :
    ∀ r, r ∈ (bookSlot st db req).availability_slots → r.id = req.SlotID → r.is_booked = true := by
  intro r hr hid
  rw [bookSlot_availability_slots] at hr
  obtain ⟨r0, _, rfl⟩ := List.mem_map.mp hr
  by_cases h0 : r0.id = req.SlotID
  · simp [h0]
  · simp [h0] at hid

/-- Booking keeps the ids of the slot rows. -/
theorem bookSlot_exists (st : Storage) (db : Store) (req : CreateAppointmentRequest)
    (r : SlotRow) (hr : r ∈ db.availability_slots) :
    ∃ r1, r1 ∈ (bookSlot st db req).availability_slots ∧ r1.id = r.id ∧
      r1.trainer_id = r.trainer_id := by
  rw [bookSlot_availability_slots]
  refine ⟨_, List.mem_map.mpr ⟨r, hr, rfl⟩, ?_, ?_⟩ <;> split <;> rfl

/-! ## C4 to C7: booking a slot -/

/-- C4, as stated, fails: slot `old` is booked and referenced by one
appointment; the storage layer accepting both statements, a booking of `old` by
another client returns an appointment, not an error, and a second appointment
row references `old`. -/
theorem CreateAppointment_books_booked_slot :
    (∃ r, r ∈ sampleStore.availability_slots ∧ r.id = "old" ∧ r.is_booked = true) ∧
    (CreateAppointment (Storage.ok 9 "a2") sampleStore ⟨"c2", "old"⟩).result
      = .ok ⟨"a2", "c2", "", "old", none, "scheduled", none, 9, 9⟩ ∧
    refCount sampleStore "old" = 1 ∧
    refCount (CreateAppointment (Storage.ok 9 "a2") sampleStore ⟨"c2", "old"⟩).store "old" = 2 :=
  ⟨⟨_, List.mem_cons_self _ _, rfl, rfl⟩, rfl, by decide, by decide⟩

/-- C4, amended: `CreateAppointment` never reads `is_booked`.  On a slot that
is already booked, the call fails only when the storage layer rejects `Begin`,
a statement or `Commit`; it then returns the storage layer's error and the
store, hence the number of appointment rows referencing the slot, is unchanged.
When the storage layer accepts both statements the call succeeds, one more
appointment row references the slot, and the slot stays booked. -/
theorem CreateAppointment_no_conflict_check (st : Storage) (db : Store)
    (req : CreateAppointmentRequest)
    (hbooked : ∃ r, r ∈ db.availability_slots ∧ r.id = req.SlotID ∧ r.is_booked = true) :
    (st.accepts 2 →
      (CreateAppointment st db req).result
        = .ok (scanAppointment (appointmentRow st req.ClientID req.SlotID)) ∧
      refCount (CreateAppointment st db req).store req.SlotID = refCount db req.SlotID + 1 ∧
      ∃ r, r ∈ (CreateAppointment st db req).store.availability_slots ∧
        r.id = req.SlotID ∧ r.is_booked = true) ∧
    (st.rejects 2 →
      ∃ e, (CreateAppointment st db req).result = .error e ∧ st.reports 2 e ∧
        (CreateAppointment st db req).store = db ∧
        refCount (CreateAppointment st db req).store req.SlotID = refCount db req.SlotID) := by
  constructor
  · intro hacc
    rw [CreateAppointment_of_accepts st db req hacc]
    refine ⟨rfl, by simp [refCount_bookSlot], ?_⟩
    obtain ⟨r, hr, hid, _⟩ := hbooked
    obtain ⟨r1, hr1, hid1, _⟩ := bookSlot_exists st db req r hr
    exact ⟨r1, hr1, hid1.trans hid, bookSlot_booked st db req r1 hr1 (hid1.trans hid)⟩
  · intro hrej
    obtain ⟨e, he, hrep⟩ :=
      CreateAppointment_of_not_accepts st db req ((st.rejects_iff _).mp hrej)
    rw [he]
    exact ⟨e, rfl, hrep, rfl, rfl⟩

/-- C4, amended, at a concrete input: the booked slot `old` is booked again. -/
theorem CreateAppointment_no_conflict_check_witness :
    (CreateAppointment (Storage.ok 9 "a2") sampleStore ⟨"c2", "old"⟩).result
      = .ok (scanAppointment (appointmentRow (Storage.ok 9 "a2") "c2" "old")) ∧
    refCount (CreateAppointment (Storage.ok 9 "a2") sampleStore ⟨"c2", "old"⟩).store "old"
      = refCount sampleStore "old" + 1 ∧
    ∃ r, r ∈ (CreateAppointment (Storage.ok 9 "a2") sampleStore
        ⟨"c2", "old"⟩).store.availability_slots ∧ r.id = "old" ∧ r.is_booked = true :=
  (CreateAppointment_no_conflict_check (Storage.ok 9 "a2") sampleStore ⟨"c2", "old"⟩
    ⟨_, List.mem_cons_self _ _, rfl, rfl⟩).1 (by decide)

/-- C5, as stated, fails: no slot has id `nope`; the storage layer accepting
both statements, a booking of `nope` returns an appointment, not an error, and
the appointments table has one row more, which references `nope`. -/
theorem CreateAppointment_books_missing_slot :
    (∀ r, r ∈ sampleStore.availability_slots → r.id ≠ "nope") ∧
    (CreateAppointment (Storage.ok 9 "a2") sampleStore ⟨"c2", "nope"⟩).result
      = .ok ⟨"a2", "c2", "", "nope", none, "scheduled", none, 9, 9⟩ ∧
    (CreateAppointment (Storage.ok 9 "a2") sampleStore ⟨"c2", "nope"⟩).store.appointments
      = sampleStore.appointments ++ [⟨"a2", "c2", none, "nope", "scheduled", none, 9, 9⟩] :=
  ⟨by decide, rfl, rfl⟩

/-- C5, amended: `CreateAppointment` does not look the slot up.  For a slot id
that matches no row of `availability_slots`, the call fails only when the
storage layer rejects `Begin`, a statement or `Commit`; it then returns the
storage layer's error and the store is unchanged.  When the storage layer
accepts both statements the call succeeds, the appointments table gains one
row referencing the missing slot id, and `availability_slots` is unchanged. -/
theorem CreateAppointment_no_slot_lookup (st : Storage) (db : Store)
    (req : CreateAppointmentRequest)
    (hmissing : ∀ r, r ∈ db.availability_slots → r.id ≠ req.SlotID) :
    (st.accepts 2 →
      (CreateAppointment st db req).result
        = .ok (scanAppointment (appointmentRow st req.ClientID req.SlotID)) ∧
      (CreateAppointment st db req).store.appointments
        = db.appointments ++ [appointmentRow st req.ClientID req.SlotID] ∧
      (CreateAppointment st db req).store.availability_slots = db.availability_slots) ∧
    (st.rejects 2 →
      ∃ e, (CreateAppointment st db req).result = .error e ∧ st.reports 2 e ∧
        (CreateAppointment st db req).store = db) := by
  constructor
  · intro hacc
    rw [CreateAppointment_of_accepts st db req hacc]
    refine ⟨rfl, rfl, ?_⟩
    rw [bookSlot_availability_slots]
    conv_rhs => rw [← List.map_id db.availability_slots]
    apply List.map_congr_left
    intro r hr
    simp [hmissing r hr]
  · intro hrej
    obtain ⟨e, he, hrep⟩ :=
      CreateAppointment_of_not_accepts st db req ((st.rejects_iff _).mp hrej)
    rw [he]
    exact ⟨e, rfl, hrep, rfl⟩

/-- C5, amended, at a concrete input: the missing slot `nope` is booked. -/
theorem CreateAppointment_no_slot_lookup_witness :
    (CreateAppointment (Storage.ok 9 "a2") sampleStore ⟨"c2", "nope"⟩).result
      = .ok (scanAppointment (appointmentRow (Storage.ok 9 "a2") "c2" "nope")) ∧
    (CreateAppointment (Storage.ok 9 "a2") sampleStore ⟨"c2", "nope"⟩).store.appointments
      = sampleStore.appointments ++ [appointmentRow (Storage.ok 9 "a2") "c2" "nope"] ∧
    (CreateAppointment (Storage.ok 9 "a2") sampleStore
        ⟨"c2", "nope"⟩).store.availability_slots = sampleStore.availability_slots :=
  (CreateAppointment_no_slot_lookup (Storage.ok 9 "a2") sampleStore ⟨"c2", "nope"⟩
    (by decide)).1 (by decide)

/-- C6: if `CreateAppointment(C, S)` succeeds on a store with an open slot `S`,
then (a) the returned appointment has `ClientID = C`, `SlotID = S` and status
`scheduled`; (b) the committed appointments table is the one of before plus
exactly one row, which carries the returned id and those values; (c) a slot
row with id `S` exists in the committed store and every such row has
`is_booked = true`. -/
theorem CreateAppointment_success (st : Storage) (db : Store) (C S : String) (a : Appointment)
    (hopen : ∃ r, r ∈ db.availability_slots ∧ r.id = S ∧ r.is_booked = false)
    (hok : (CreateAppointment st db ⟨C, S⟩).result = .ok a) :
    (a.ClientID = C ∧ a.SlotID = S ∧ a.Status = "scheduled") ∧
    (∃ row, (CreateAppointment st db ⟨C, S⟩).store.appointments = db.appointments ++ [row] ∧
      row.id = a.ID ∧ row.client_id = C ∧ row.slot_id = S ∧ row.status = "scheduled") ∧
    (∃ r, r ∈ (CreateAppointment st db ⟨C, S⟩).store.availability_slots ∧ r.id = S) ∧
    (∀ r, r ∈ (CreateAppointment st db ⟨C, S⟩).store.availability_slots → r.id = S →
      r.is_booked = true) := by
  have hacc := CreateAppointment_accepts_of_ok st db ⟨C, S⟩ a hok
  rw [CreateAppointment_of_accepts st db ⟨C, S⟩ hacc] at hok ⊢
  simp only [Except.ok.injEq] at hok
  subst hok
  refine ⟨⟨rfl, rfl, rfl⟩, ⟨_, rfl, rfl, rfl, rfl, rfl⟩, ?_, bookSlot_booked st db ⟨C, S⟩⟩
  obtain ⟨r, hr, hid, _⟩ := hopen
  obtain ⟨r1, hr1, hid1, _⟩ := bookSlot_exists st db ⟨C, S⟩ r hr
  exact ⟨r1, hr1, hid1.trans hid⟩

/-- C6, at a concrete input: client `c2` books the open slot `u1`. -/
theorem CreateAppointment_success_witness :
    (∃ r, r ∈ sampleStore.availability_slots ∧ r.id = "u1" ∧ r.is_booked = false) ∧
    (CreateAppointment (Storage.ok 9 "a2") sampleStore ⟨"c2", "u1"⟩).result
      = .ok ⟨"a2", "c2", "", "u1", none, "scheduled", none, 9, 9⟩ ∧
    (∃ row, (CreateAppointment (Storage.ok 9 "a2") sampleStore ⟨"c2", "u1"⟩).store.appointments
        = sampleStore.appointments ++ [row] ∧
      row.id = "a2" ∧ row.client_id = "c2" ∧ row.slot_id = "u1" ∧ row.status = "scheduled") ∧
    (∀ r, r ∈ (CreateAppointment (Storage.ok 9 "a2") sampleStore
        ⟨"c2", "u1"⟩).store.availability_slots → r.id = "u1" → r.is_booked = true) :=
  have h := CreateAppointment_success (Storage.ok 9 "a2") sampleStore "c2" "u1"
    ⟨"a2", "c2", "", "u1", none, "scheduled", none, 9, 9⟩
    ⟨_, List.mem_cons_of_mem _ (List.mem_cons_self _ _), rfl, rfl⟩ rfl
  ⟨⟨_, List.mem_cons_of_mem _ (List.mem_cons_self _ _), rfl, rfl⟩, rfl, h.2.1, h.2.2.2⟩

/-- C7: `CreateAppointment` is atomic.  If the storage layer rejects `Begin`,
the `INSERT`, the `UPDATE` or `Commit`, the call returns an error and the
committed store is the store of before the call.  In every case the committed
store is either the store of before the call or, the call having succeeded, the
store with both the new appointment row and the slot marked booked; so whenever
the committed appointments table differs from the one of before, every slot
row with the requested id is booked. -/
theorem CreateAppointment_atomic (st : Storage) (db : Store) (req : CreateAppointmentRequest) :
    (st.rejects 2 →
      (∃ e, (CreateAppointment st db req).result = .error e) ∧
      (CreateAppointment st db req).store = db) ∧
    ((CreateAppointment st db req).store = db ∨
      ((CreateAppointment st db req).result
          = .ok (scanAppointment (appointmentRow st req.ClientID req.SlotID)) ∧
       (CreateAppointment st db req).store = bookSlot st db req)) ∧
    (∀ r, (CreateAppointment st db req).store.appointments ≠ db.appointments →
      r ∈ (CreateAppointment st db req).store.availability_slots → r.id = req.SlotID →
      r.is_booked = true) := by
  by_cases hacc : st.accepts 2
  · rw [CreateAppointment_of_accepts st db req hacc]
    exact ⟨fun hrej => absurd hacc ((st.rejects_iff _).mp hrej), Or.inr ⟨rfl, rfl⟩,
      fun r _ hr hid => bookSlot_booked st db req r hr hid⟩
  · obtain ⟨e, he, _⟩ := CreateAppointment_of_not_accepts st db req hacc
    rw [he]
    exact ⟨fun _ => ⟨⟨e, rfl⟩, rfl⟩, Or.inl rfl, fun r hne _ _ => absurd rfl hne⟩

/-- C7, at a concrete input: the `UPDATE` of the slot is rejected after the
`INSERT` of the appointment was accepted; nothing is committed. -/
theorem CreateAppointment_atomic_witness :
    (Storage.failingAt 1 9 "a2").rejects 2 ∧
    (∃ e, (CreateAppointment (Storage.failingAt 1 9 "a2") sampleStore
        ⟨"c2", "u1"⟩).result = .error e) ∧
    (CreateAppointment (Storage.failingAt 1 9 "a2") sampleStore ⟨"c2", "u1"⟩).store
      = sampleStore :=
  ⟨by decide, (CreateAppointment_atomic (Storage.failingAt 1 9 "a2") sampleStore
    ⟨"c2", "u1"⟩).1 (by decide)⟩

/-! ## C8: two bookings of one slot -/

/-- C8, as stated, fails already when the two calls run one after the other,
which is one of the schedules of two concurrent calls: slot `u1` is open; the
storage layer accepting every statement, the booking by `c1` and then the
booking by `c2` both return an appointment, and two appointment rows reference
`u1` afterwards. -/
theorem CreateAppointment_twice_same_slot :
    (∃ r, r ∈ sampleStore.availability_slots ∧ r.id = "u1" ∧ r.is_booked = false) ∧
    (CreateAppointment (Storage.ok 9 "a2") sampleStore ⟨"c1", "u1"⟩).result
      = .ok ⟨"a2", "c1", "", "u1", none, "scheduled", none, 9, 9⟩ ∧
    (CreateAppointment (Storage.ok 10 "a3")
        (CreateAppointment (Storage.ok 9 "a2") sampleStore ⟨"c1", "u1"⟩).store
        ⟨"c2", "u1"⟩).result
      = .ok ⟨"a3", "c2", "", "u1", none, "scheduled", none, 10, 10⟩ ∧
    refCount (CreateAppointment (Storage.ok 10 "a3")
        (CreateAppointment (Storage.ok 9 "a2") sampleStore ⟨"c1", "u1"⟩).store
        ⟨"c2", "u1"⟩).store "u1" = 2 :=
  ⟨⟨_, List.mem_cons_of_mem _ (List.mem_cons_self _ _), rfl, rfl⟩, rfl, rfl, by decide⟩

/-- C8, amended: two `CreateAppointment` calls against one open slot `S`, run
one after the other (the clients and the order are arbitrary), both return an
appointment when the storage layer accepts the statements of both; afterwards
every slot row with id `S` has `is_booked = true`, such a row exists, and two
appointment rows more than before reference `S`, one per client.  Nothing in
the handler makes the second call fail. -/
theorem CreateAppointment_serial_same_slot (st1 st2 : Storage) (db : Store) (C1 C2 S : String)
    (hopen : ∃ r, r ∈ db.availability_slots ∧ r.id = S ∧ r.is_booked = false)
    (h1 : st1.accepts 2) (h2 : st2.accepts 2) :
    (CreateAppointment st1 db ⟨C1, S⟩).result
      = .ok (scanAppointment (appointmentRow st1 C1 S)) ∧
    (CreateAppointment st2 (CreateAppointment st1 db ⟨C1, S⟩).store ⟨C2, S⟩).result
      = .ok (scanAppointment (appointmentRow st2 C2 S)) ∧
    (CreateAppointment st2 (CreateAppointment st1 db ⟨C1, S⟩).store ⟨C2, S⟩).store.appointments
      = db.appointments ++ [appointmentRow st1 C1 S, appointmentRow st2 C2 S] ∧
    refCount (CreateAppointment st2 (CreateAppointment st1 db ⟨C1, S⟩).store ⟨C2, S⟩).store S
      = refCount db S + 2 ∧
    (∃ r, r ∈ (CreateAppointment st2 (CreateAppointment st1 db ⟨C1, S⟩).store
        ⟨C2, S⟩).store.availability_slots ∧ r.id = S) ∧
    (∀ r, r ∈ (CreateAppointment st2 (CreateAppointment st1 db ⟨C1, S⟩).store
        ⟨C2, S⟩).store.availability_slots → r.id = S → r.is_booked = true) := by
  have e1 := CreateAppointment_of_accepts st1 db ⟨C1, S⟩ h1
  have hs1 : (CreateAppointment st1 db ⟨C1, S⟩).store = bookSlot st1 db ⟨C1, S⟩ := by rw [e1]
  rw [hs1, CreateAppointment_of_accepts st2 _ ⟨C2, S⟩ h2]
  refine ⟨by rw [e1], rfl, ?_, ?_, ?_, bookSlot_booked st2 _ ⟨C2, S⟩⟩
  · simp [bookSlot_appointments]
  · simp [refCount_bookSlot]
  · obtain ⟨r, hr, hid, _⟩ := hopen
    obtain ⟨r1, hr1, hid1, _⟩ := bookSlot_exists st1 db ⟨C1, S⟩ r hr
    obtain ⟨r2, hr2, hid2, _⟩ := bookSlot_exists st2 _ ⟨C2, S⟩ r1 hr1
    exact ⟨r2, hr2, (hid2.trans hid1).trans hid⟩

/-- C8, amended, at a concrete input: `c1` then `c2` book the open slot `u1`. -/
theorem CreateAppointment_serial_same_slot_witness :
    (CreateAppointment (Storage.ok 10 "a3")
        (CreateAppointment (Storage.ok 9 "a2") sampleStore ⟨"c1", "u1"⟩).store
        ⟨"c2", "u1"⟩).result
      = .ok (scanAppointment (appointmentRow (Storage.ok 10 "a3") "c2" "u1")) ∧
    refCount (CreateAppointment (Storage.ok 10 "a3")
        (CreateAppointment (Storage.ok 9 "a2") sampleStore ⟨"c1", "u1"⟩).store
        ⟨"c2", "u1"⟩).store "u1" = refCount sampleStore "u1" + 2 :=
  have h := CreateAppointment_serial_same_slot (Storage.ok 9 "a2") (Storage.ok 10 "a3")
    sampleStore "c1" "c2" "u1"
    ⟨_, List.mem_cons_of_mem _ (List.mem_cons_self _ _), rfl, rfl⟩ (by decide) (by decide)
  ⟨h.2.1, h.2.2.2.1⟩

/-! ## C9 and C10: slots and the appointments that reference them -/

theorem refCount_replaceSlots (now : Nat) (db : Store) (req : SetAvailabilityRequest)
    (S : String) : refCount (replaceSlots now db req) S = refCount db S := rfl

/-- C9, as stated, fails for both operations.  `sampleStore` is consistent.  A
successful `SetAvailability` that submits a slot with its booked flag set
stores a booked slot that no appointment references; a successful
`CreateAppointment` on the booked slot `old` leaves it referenced by two
appointments. -/
theorem consistent_not_preserved :
    consistent sampleStore ∧
    (SetAvailability (Storage.ok 7 "") sampleStore ⟨"U", [bookedSlot]⟩).result
      = .ok ⟨[bookedSlot]⟩ ∧
    ¬ consistent (SetAvailability (Storage.ok 7 "") sampleStore ⟨"U", [bookedSlot]⟩).store ∧
    (CreateAppointment (Storage.ok 9 "a2") sampleStore ⟨"c2", "old"⟩).result
      = .ok ⟨"a2", "c2", "", "old", none, "scheduled", none, 9, 9⟩ ∧
    ¬ consistent (CreateAppointment (Storage.ok 9 "a2") sampleStore ⟨"c2", "old"⟩).store :=
  ⟨by decide, rfl, by decide, rfl, by decide⟩

/-- C9, amended: from a consistent store, a successful `SetAvailability` gives
a consistent store when each submitted slot agrees with the appointments
table (its id is referenced by exactly one appointment row if it is submitted
with `is_booked = true`, by none otherwise), and a successful
`CreateAppointment` gives a consistent store when no slot row with the
requested id is already booked. -/
theorem consistent_preserved (db : Store) (hc : consistent db) :
    (∀ (st : Storage) (req : SetAvailabilityRequest) (resp : SetAvailabilityResponse),
      (SetAvailability st db req).result = .ok resp →
      (∀ s, s ∈ req.Slots → refCount db s.ID = if s.IsBooked then 1 else 0) →
      consistent (SetAvailability st db req).store) ∧
    (∀ (st : Storage) (req : CreateAppointmentRequest) (a : Appointment),
      (CreateAppointment st db req).result = .ok a →
      (∀ r, r ∈ db.availability_slots → r.id = req.SlotID → r.is_booked = false) →
      consistent (CreateAppointment st db req).store) := by
  constructor
  · intro st req resp hok hsub
    rw [SetAvailability_of_accepts st db req (SetAvailability_accepts_of_ok st db req resp hok)]
    intro r hr
    simp only [refCount_replaceSlots]
    simp only [replaceSlots, List.mem_append, List.mem_filter, List.mem_map] at hr
    rcases hr with ⟨hr, _⟩ | ⟨s, hs, rfl⟩
    · exact hc r hr
    · exact hsub s hs
  · intro st req a hok hfree
    rw [CreateAppointment_of_accepts st db req (CreateAppointment_accepts_of_ok st db req a hok)]
    intro r hr
    simp only [refCount_bookSlot]
    rw [bookSlot_availability_slots] at hr
    obtain ⟨r0, hr0, rfl⟩ := List.mem_map.mp hr
    have h0 := hc r0 hr0
    by_cases hid : r0.id = req.SlotID
    · have hfalse := hfree r0 hr0 hid
      simp [hid, hfalse] at h0 ⊢
      exact h0
    · have hne : ¬ req.SlotID = r0.id := fun h => hid h.symm
      simp [hid, hne, h0]

/-- C9, amended, at a concrete input: trainer `U` replaces its open slot by
the open slot `goodSlot`, which no appointment references. -/
theorem consistent_preserved_witness :
    consistent sampleStore ∧
    consistent (SetAvailability (Storage.ok 7 "") sampleStore ⟨"U", [goodSlot]⟩).store ∧
    consistent (CreateAppointment (Storage.ok 9 "a2") sampleStore ⟨"c2", "u1"⟩).store :=
  ⟨by decide,
   (consistent_preserved sampleStore (by decide)).1 (Storage.ok 7 "") ⟨"U", [goodSlot]⟩
     ⟨[goodSlot]⟩ rfl (by decide),
   (consistent_preserved sampleStore (by decide)).2 (Storage.ok 9 "a2") ⟨"c2", "u1"⟩
     ⟨"a2", "c2", "", "u1", none, "scheduled", none, 9, 9⟩ rfl (by decide)⟩

/-- C10, as stated, fails: slot `old` of trainer `T` is booked and referenced
by an appointment; the storage layer accepting every statement,
`SetAvailability` for `T` succeeds, no slot row with id `old` is left, and the
appointment row still references `old`. -/
theorem SetAvailability_removes_booked_slot :
    (∃ r, r ∈ sampleStore.availability_slots ∧
      r.id = "old" ∧ r.trainer_id = "T" ∧ r.is_booked = true) ∧
    (∃ a, a ∈ sampleStore.appointments ∧ a.slot_id = "old") ∧
    (SetAvailability (Storage.ok 7 "") sampleStore ⟨"T", [goodSlot]⟩).result
      = .ok ⟨[goodSlot]⟩ ∧
    (∀ r, r ∈ (SetAvailability (Storage.ok 7 "") sampleStore
        ⟨"T", [goodSlot]⟩).store.availability_slots → r.id ≠ "old") ∧
    (∃ a, a ∈ (SetAvailability (Storage.ok 7 "") sampleStore
        ⟨"T", [goodSlot]⟩).store.appointments ∧ a.slot_id = "old") :=
  ⟨⟨_, List.mem_cons_self _ _, rfl, rfl, rfl⟩, ⟨_, List.mem_cons_self _ _, rfl⟩, rfl,
    by decide, ⟨_, List.mem_cons_self _ _, rfl⟩⟩

/-- C10, amended: `SetAvailability` for trainer `T` removes every slot stored
for `T`, booked or not.  For a slot row `r` of `T`: if the storage layer rejects
`Begin`, a statement or `Commit`, the call fails and `r` is still stored; if it
accepts every statement, the call succeeds, the slot rows of `T` are exactly
the rows written for the submitted slots (so `r` is stored afterwards only if
a submitted slot writes the same row again), a slot row with the id of `r` is
left only if a submitted slot or a slot of another trainer has that id, and the
appointments table is unchanged, so appointments that referenced `r` stay. -/
theorem SetAvailability_replaces_booked_slots (st : Storage) (db : Store)
    (req : SetAvailabilityRequest) (r : SlotRow)
    (hr : r ∈ db.availability_slots) (hT : r.trainer_id = req.TrainerID) :
    (st.rejects (req.Slots.length + 1) →
      (∃ e, (SetAvailability st db req).result = .error e) ∧
      r ∈ (SetAvailability st db req).store.availability_slots) ∧
    (st.accepts (req.Slots.length + 1) →
      (SetAvailability st db req).result = .ok ⟨req.Slots⟩ ∧
      (SetAvailability st db req).store.appointments = db.appointments ∧
      (SetAvailability st db req).store.availability_slots.filter
          (fun x => x.trainer_id == req.TrainerID)
        = req.Slots.map (slotRow st.now req.TrainerID) ∧
      (r ∈ (SetAvailability st db req).store.availability_slots ↔
        ∃ s, s ∈ req.Slots ∧ slotRow st.now req.TrainerID s = r) ∧
      ((∃ x, x ∈ (SetAvailability st db req).store.availability_slots ∧ x.id = r.id) ↔
        (∃ s, s ∈ req.Slots ∧ s.ID = r.id) ∨
        (∃ y, y ∈ db.availability_slots ∧ y.trainer_id ≠ req.TrainerID ∧ y.id = r.id))) := by
  constructor
  · intro hrej
    obtain ⟨e, he, _⟩ :=
      SetAvailability_of_not_accepts st db req ((st.rejects_iff _).mp hrej)
    rw [he]
    exact ⟨⟨e, rfl⟩, hr⟩
  · intro hacc
    rw [SetAvailability_of_accepts st db req hacc]
    refine ⟨rfl, rfl, filter_replaceSlots st.now db req, ?_, ?_⟩
    · simp only [replaceSlots, List.mem_append, List.mem_filter, List.mem_map]
      constructor
      · rintro (⟨_, hne⟩ | h)
        · simp [hT] at hne
        · exact h
      · exact fun h => Or.inr h
    simp only [replaceSlots, List.mem_append, List.mem_filter, List.mem_map]
    constructor
    · rintro ⟨x, (⟨hx, hne⟩ | ⟨s, hs, rfl⟩), hid⟩
      · exact Or.inr ⟨x, hx, by simpa using hne, hid⟩
      · exact Or.inl ⟨s, hs, hid⟩
    · rintro (⟨s, hs, hid⟩ | ⟨y, hy, hne, hid⟩)
      · exact ⟨_, Or.inr ⟨s, hs, rfl⟩, hid⟩
      · exact ⟨y, Or.inl ⟨hy, by simpa using hne⟩, hid⟩

/-- C10, amended, at a concrete input: trainer `T` replaces its booked slot
`old`; the only slot row of `T` afterwards is the one written for `goodSlot`. -/
theorem SetAvailability_replaces_booked_slots_witness :
    (SetAvailability (Storage.ok 7 "") sampleStore ⟨"T", [goodSlot]⟩).store.appointments
      = sampleStore.appointments ∧
    (SetAvailability (Storage.ok 7 "") sampleStore
        ⟨"T", [goodSlot]⟩).store.availability_slots.filter (fun x => x.trainer_id == "T")
      = [slotRow 7 "T" goodSlot] :=
  have h := (SetAvailability_replaces_booked_slots (Storage.ok 7 "") sampleStore
    ⟨"T", [goodSlot]⟩ ⟨"old", "T", 1, "09:00", "10:00", false, true, 5⟩
    (List.mem_cons_self _ _) rfl).2 (by decide)
  ⟨h.2.1, h.2.2.1⟩

/-! ## C11 to C14: what a booking returns, and whose slots a replacement touches -/

/-- C11, as stated, fails: client `c2` books the open slot `u1`; the call
succeeds and the returned appointment carries no slot snapshot. -/
theorem CreateAppointment_returns_no_slot :
    (∃ r, r ∈ sampleStore.availability_slots ∧ r.id = "u1" ∧ r.is_booked = false) ∧
    ∃ a, (CreateAppointment (Storage.ok 9 "a2") sampleStore ⟨"c2", "u1"⟩).result = .ok a ∧
      a.Slot = none :=
  ⟨⟨_, List.mem_cons_of_mem _ (List.mem_cons_self _ _), rfl, rfl⟩, _, rfl, rfl⟩

/-- C11, amended: the appointment returned by a successful `CreateAppointment`
carries the columns `id, client_id, slot_id, status, created_at, updated_at` of
the inserted row and nothing else: its `Slot` is nil and its `Notes` is nil.
The booked flag is set on the stored slot rows with the requested id, not on a
snapshot. -/
theorem CreateAppointment_slot_nil (st : Storage) (db : Store) (req : CreateAppointmentRequest)
    (a : Appointment) (hok : (CreateAppointment st db req).result = .ok a) :
    a.Slot = none ∧ a.Notes = none ∧
    returnedColumns a = selectedColumns (appointmentRow st req.ClientID req.SlotID) ∧
    (∀ r, r ∈ (CreateAppointment st db req).store.availability_slots → r.id = req.SlotID →
      r.is_booked = true) := by
  have hacc := CreateAppointment_accepts_of_ok st db req a hok
  rw [CreateAppointment_of_accepts st db req hacc] at hok ⊢
  simp only [Except.ok.injEq] at hok
  subst hok
  exact ⟨rfl, rfl, rfl, bookSlot_booked st db req⟩

/-- C11, amended, at a concrete input: client `c2` books the open slot `u1`. -/
theorem CreateAppointment_slot_nil_witness :
    (CreateAppointment (Storage.ok 9 "a2") sampleStore ⟨"c2", "u1"⟩).result
      = .ok ⟨"a2", "c2", "", "u1", none, "scheduled", none, 9, 9⟩ ∧
    (∀ r, r ∈ (CreateAppointment (Storage.ok 9 "a2") sampleStore
        ⟨"c2", "u1"⟩).store.availability_slots → r.id = "u1" → r.is_booked = true) :=
  ⟨rfl, (CreateAppointment_slot_nil (Storage.ok 9 "a2") sampleStore ⟨"c2", "u1"⟩
    ⟨"a2", "c2", "", "u1", none, "scheduled", none, 9, 9⟩ rfl).2.2.2⟩

/-- C12, the code at a failing input: slot `u1` is owned by trainer `U`; the
booking of `u1` by `c2` succeeds, the returned appointment has an empty
`TrainerID`, and the stored row has no trainer id. -/
theorem CreateAppointment_trainer_not_recorded :
    (∃ r, r ∈ sampleStore.availability_slots ∧ r.id = "u1" ∧ r.trainer_id = "U") ∧
    (∃ a, (CreateAppointment (Storage.ok 9 "a2") sampleStore ⟨"c2", "u1"⟩).result = .ok a ∧
      a.TrainerID = "" ∧ a.TrainerID ≠ "U") ∧
    (CreateAppointment (Storage.ok 9 "a2") sampleStore ⟨"c2", "u1"⟩).store.appointments
      = sampleStore.appointments ++ [⟨"a2", "c2", none, "u1", "scheduled", none, 9, 9⟩] :=
  ⟨⟨_, List.mem_cons_of_mem _ (List.mem_cons_self _ _), rfl, rfl⟩,
    ⟨_, rfl, rfl, by decide⟩, rfl⟩

/-- C13, as stated, fails: the `trainers` table is empty, so the id `ghost`
matches no trainer; the storage layer accepting both statements,
`SetAvailability` for `ghost` succeeds and stores a slot row under that id. -/
theorem SetAvailability_unknown_trainer :
    sampleStore.trainers = [] ∧
    (SetAvailability (Storage.ok 7 "") sampleStore ⟨"ghost", [goodSlot]⟩).result
      = .ok ⟨[goodSlot]⟩ ∧
    (⟨"s1", "ghost", 1, "09:00", "10:00", true, false, 7⟩ : SlotRow) ∈
      (SetAvailability (Storage.ok 7 "") sampleStore ⟨"ghost", [goodSlot]⟩).store.availability_slots :=
  ⟨rfl, rfl, by decide⟩

theorem insertSlots_trainers (st : Storage) (T : String) (ts : List TrainerRow) :
    ∀ (L : List AvailabilitySlot) (n : Nat) (w : Store),
      insertSlots st T L n { w with trainers := ts }
        = (insertSlots st T L n w).map (fun x => { x with trainers := ts })
  | [], _, _ => rfl
  | s :: rest, n, w => by
    cases h : st.exec n with
    | some e => simp [insertSlots, h, Except.map]
    | none =>
      simp only [insertSlots, h]
      exact insertSlots_trainers st T ts rest (n + 1) (insertSlot w st.now T s)

/-- C13, amended: `SetAvailability` never reads the `trainers` table.  Whatever
that table holds (so also when the trainer id matches no row of it), the
result is the same and so are the committed slots and appointments.  The call
fails only when the storage layer rejects `Begin`, a statement or `Commit`,
returning the storage layer's error and committing nothing; when the storage
layer accepts every statement the call succeeds and one slot row per submitted
slot is stored under the request's trainer id. -/
theorem SetAvailability_ignores_trainers (st : Storage) (db : Store)
    (req : SetAvailabilityRequest) (ts : List TrainerRow) :
    ((SetAvailability st { db with trainers := ts } req).result
        = (SetAvailability st db req).result ∧
      (SetAvailability st { db with trainers := ts } req).store
        = { (SetAvailability st db req).store with trainers := ts }) ∧
    (st.accepts (req.Slots.length + 1) →
      (SetAvailability st db req).result = .ok ⟨req.Slots⟩ ∧
      (SetAvailability st db req).store.trainers = db.trainers ∧
      ∀ s, s ∈ req.Slots →
        slotRow st.now req.TrainerID s ∈ (SetAvailability st db req).store.availability_slots) ∧
    (st.rejects (req.Slots.length + 1) →
      ∃ e, (SetAvailability st db req).result = .error e ∧
        st.reports (req.Slots.length + 1) e ∧ (SetAvailability st db req).store = db) := by
  refine ⟨?_, ?_, ?_⟩
  · by_cases hacc : st.accepts (req.Slots.length + 1)
    · rw [SetAvailability_of_accepts st _ req hacc, SetAvailability_of_accepts st db req hacc]
      exact ⟨rfl, rfl⟩
    · obtain ⟨e, he, _⟩ := SetAvailability_of_not_accepts st db req hacc
      obtain ⟨e1, he1, _⟩ := SetAvailability_of_not_accepts st { db with trainers := ts } req hacc
      have hres : (SetAvailability st { db with trainers := ts } req).result
          = (SetAvailability st db req).result := by
        simp only [SetAvailability, deleteSlots]
        cases st.begin with
        | some _ => rfl
        | none =>
          cases st.exec 0 with
          | some _ => rfl
          | none =>
            simp only
            have hi := insertSlots_trainers st req.TrainerID ts req.Slots 1
              { db with availability_slots :=
                  db.availability_slots.filter (fun r => r.trainer_id != req.TrainerID) }
            simp only at hi
            rw [hi]
            cases insertSlots st req.TrainerID req.Slots 1
              { db with availability_slots :=
                  db.availability_slots.filter (fun r => r.trainer_id != req.TrainerID) } with
            | error _ => rfl
            | ok _ =>
              simp only [Except.map]
              cases st.commit <;> rfl
      refine ⟨hres, ?_⟩
      rw [he1, he]
  · intro hacc
    rw [SetAvailability_of_accepts st db req hacc]
    refine ⟨rfl, rfl, ?_⟩
    intro s hs
    simp only [replaceSlots, List.mem_append, List.mem_map]
    exact Or.inr ⟨s, hs, rfl⟩
  · intro hrej
    obtain ⟨e, he, hrep⟩ :=
      SetAvailability_of_not_accepts st db req ((st.rejects_iff _).mp hrej)
    rw [he]
    exact ⟨e, rfl, hrep, rfl⟩

/-- C13, amended, at a concrete input: availability is stored for the id
`ghost`, which matches no trainer. -/
theorem SetAvailability_ignores_trainers_witness :
    (SetAvailability (Storage.ok 7 "") sampleStore ⟨"ghost", [goodSlot]⟩).result
      = .ok ⟨[goodSlot]⟩ ∧
    (SetAvailability (Storage.ok 7 "") sampleStore ⟨"ghost", [goodSlot]⟩).store.trainers
      = sampleStore.trainers ∧
    ∀ s, s ∈ [goodSlot] → slotRow 7 "ghost" s ∈
      (SetAvailability (Storage.ok 7 "") sampleStore ⟨"ghost", [goodSlot]⟩).store.availability_slots :=
  (SetAvailability_ignores_trainers (Storage.ok 7 "") sampleStore ⟨"ghost", [goodSlot]⟩
    []).2.1 (by decide)

/-- The slots of another trainer are the same in the replaced store. -/
theorem filter_replaceSlots_other (now : Nat) (db : Store) (req : SetAvailabilityRequest)
    (T : String) (hne : T ≠ req.TrainerID) :
    (replaceSlots now db req).availability_slots.filter (fun r => r.trainer_id == T)
      = db.availability_slots.filter (fun r => r.trainer_id == T) := by
  simp only [replaceSlots, List.filter_append, List.filter_filter]
  have h1 : (req.Slots.map (slotRow now req.TrainerID)).filter (fun r => r.trainer_id == T)
      = [] := by
    apply List.filter_eq_nil_iff.mpr
    intro r hr
    obtain ⟨s, _, rfl⟩ := List.mem_map.mp hr
    simpa [slotRow] using fun h => hne h.symm
  rw [h1, List.append_nil]
  apply List.filter_congr
  intro r _
  by_cases h : r.trainer_id = T
  · simp [h, hne]
  · simp [h]

/-- C14: `SetAvailability` for trainer `T` touches only the slots of `T`.  For
every other trainer the stored slots, and so what `GetTrainerAvailability`
returns, are the same before and after the call, whether it succeeds or fails;
the other tables are unchanged; every slot row of the committed store was
already stored or is stored under the request's trainer id, and on success
each submitted slot is stored under that id, whatever `TrainerID` the
submitted slot itself carries. -/
theorem SetAvailability_frame (st : Storage) (db : Store) (req : SetAvailabilityRequest)
    (T : String) (hne : T ≠ req.TrainerID) :
    (SetAvailability st db req).store.availability_slots.filter (fun r => r.trainer_id == T)
      = db.availability_slots.filter (fun r => r.trainer_id == T) ∧
    (∀ rd, GetTrainerAvailability rd (SetAvailability st db req).store T
      = GetTrainerAvailability rd db T) ∧
    (SetAvailability st db req).store.trainers = db.trainers ∧
    (SetAvailability st db req).store.appointments = db.appointments ∧
    (∀ r, r ∈ (SetAvailability st db req).store.availability_slots →
      r ∈ db.availability_slots ∨ r.trainer_id = req.TrainerID) ∧
    (∀ resp, (SetAvailability st db req).result = .ok resp → ∀ s, s ∈ req.Slots →
      ∃ r, r ∈ (SetAvailability st db req).store.availability_slots ∧
        r.id = s.ID ∧ r.trainer_id = req.TrainerID) := by
  by_cases hacc : st.accepts (req.Slots.length + 1)
  · rw [SetAvailability_of_accepts st db req hacc]
    have hf := filter_replaceSlots_other st.now db req T hne
    refine ⟨hf, ?_, rfl, rfl, ?_, ?_⟩
    · intro rd
      simp only [GetTrainerAvailability, slotRows, hf]
    · intro r hr
      simp only [replaceSlots, List.mem_append, List.mem_filter, List.mem_map] at hr
      rcases hr with ⟨hr, _⟩ | ⟨s, _, rfl⟩
      · exact Or.inl hr
      · exact Or.inr rfl
    · intro _ _ s hs
      refine ⟨slotRow st.now req.TrainerID s, ?_, rfl, rfl⟩
      simp only [replaceSlots, List.mem_append, List.mem_map]
      exact Or.inr ⟨s, hs, rfl⟩
  · obtain ⟨e, he, _⟩ := SetAvailability_of_not_accepts st db req hacc
    rw [he]
    exact ⟨rfl, fun _ => rfl, rfl, rfl, fun r hr => Or.inl hr, fun _ h => by cases h⟩

/-- C14, at a concrete input: trainer `T` replaces its slots by one that
carries the trainer id `U`; the slots of `U` are untouched. -/
theorem SetAvailability_frame_witness :
    (SetAvailability (Storage.ok 7 "") sampleStore
        ⟨"T", [⟨"s9", "U", 1, "09:00", "10:00", true, false, 0⟩]⟩).store.availability_slots.filter
        (fun r => r.trainer_id == "U")
      = sampleStore.availability_slots.filter (fun r => r.trainer_id == "U") ∧
    (∀ rd, GetTrainerAvailability rd (SetAvailability (Storage.ok 7 "") sampleStore
        ⟨"T", [⟨"s9", "U", 1, "09:00", "10:00", true, false, 0⟩]⟩).store "U"
      = GetTrainerAvailability rd sampleStore "U") :=
  have h := SetAvailability_frame (Storage.ok 7 "") sampleStore
    ⟨"T", [⟨"s9", "U", 1, "09:00", "10:00", true, false, 0⟩]⟩ "U" (by decide)
  ⟨h.1, h.2.1⟩

/-! ## C15: bookings of different slots -/

/-- The success of `CreateAppointment` is decided by the storage layer alone. -/
theorem CreateAppointment_succeeded_iff (st : Storage) (db : Store)
    (req : CreateAppointmentRequest) :
    succeeded (CreateAppointment st db req).result ↔ st.accepts 2 := by
  constructor
  · rintro ⟨a, ha⟩
    exact CreateAppointment_accepts_of_ok st db req a ha
  · intro hacc
    rw [CreateAppointment_of_accepts st db req hacc]
    exact ⟨_, rfl⟩

theorem CreateAppointment_store (st : Storage) (db : Store) (req : CreateAppointmentRequest) :
    (CreateAppointment st db req).store = if st.accepts 2 then bookSlot st db req else db := by
  by_cases hacc : st.accepts 2
  · rw [CreateAppointment_of_accepts st db req hacc, if_pos hacc]
  · obtain ⟨e, he, _⟩ := CreateAppointment_of_not_accepts st db req hacc
    rw [he, if_neg hacc]

theorem appointmentKey_appointmentRow (st : Storage) (C S : String) :
    appointmentKey (appointmentRow st C S) = (C, none, S, "scheduled", none) := rfl

/-- Marking two slot ids as booked gives the same rows in either order. -/
theorem markBooked_comm (l : List SlotRow) (S1 S2 : String) :
    (l.map (fun r => if r.id = S1 then { r with is_booked := true } else r)).map
        (fun r => if r.id = S2 then { r with is_booked := true } else r)
      = (l.map (fun r => if r.id = S2 then { r with is_booked := true } else r)).map
        (fun r => if r.id = S1 then { r with is_booked := true } else r) := by
  simp only [List.map_map]
  apply List.map_congr_left
  intro r _
  by_cases h1 : r.id = S1
  · subst h1
    by_cases h2 : r.id = S2
    · subst h2
      simp
    · simp [h2]
  · by_cases h2 : r.id = S2
    · subst h2
      simp [h1]
    · simp [h1, h2]

/-- The value `CreateAppointment` returns depends on the answers of the
storage layer and on the request only: not on the store, and, up to the
generated id and timestamps, not on the values the storage layer generates. -/
theorem CreateAppointment_result_regenerate (st : Storage) (db db1 : Store)
    (req : CreateAppointmentRequest) (now : Nat) (newID : String) :
    (CreateAppointment st db req).result.map appointmentValue
      = (CreateAppointment (st.regenerate now newID) db1 req).result.map appointmentValue := by
  simp only [CreateAppointment, Storage.regenerate]
  cases st.begin <;> cases st.exec 0 <;> cases st.exec 1 <;> cases st.commit <;> rfl

theorem Storage.accepts_regenerate (st : Storage) (now : Nat) (newID : String) (n : Nat) :
    (st.regenerate now newID).accepts n ↔ st.accepts n := Iff.rfl

/-- C15: bookings of different slots commute.  Whatever the storage layer
answers to the statements of each of the two calls, and whatever ids and
timestamps it generates in one order and in the other, each call has the same
outcome in both orders: it succeeds in one exactly when it succeeds in the
other, with the same error or the same appointment up to id and timestamps.
The slot rows (and so the booked flags) of the final store are the same, and
the final appointment rows are the same up to order, generated ids and
timestamps.  The outcome of a call does not depend on the store, so this
holds for any two slot ids, different or not. -/
theorem CreateAppointment_commute (st1 st2 : Storage) (db : Store) (C1 C2 S1 S2 : String)
    (n1 n2 : Nat) (i1 i2 : String) :
    (succeeded (CreateAppointment st1 db ⟨C1, S1⟩).result ↔
      succeeded (CreateAppointment (st1.regenerate n1 i1)
        (CreateAppointment (st2.regenerate n2 i2) db ⟨C2, S2⟩).store ⟨C1, S1⟩).result) ∧
    (succeeded (CreateAppointment st2 (CreateAppointment st1 db ⟨C1, S1⟩).store
        ⟨C2, S2⟩).result ↔
      succeeded (CreateAppointment (st2.regenerate n2 i2) db ⟨C2, S2⟩).result) ∧
    ((CreateAppointment st1 db ⟨C1, S1⟩).result.map appointmentValue
      = (CreateAppointment (st1.regenerate n1 i1)
        (CreateAppointment (st2.regenerate n2 i2) db ⟨C2, S2⟩).store
        ⟨C1, S1⟩).result.map appointmentValue) ∧
    ((CreateAppointment st2 (CreateAppointment st1 db ⟨C1, S1⟩).store
        ⟨C2, S2⟩).result.map appointmentValue
      = (CreateAppointment (st2.regenerate n2 i2) db ⟨C2, S2⟩).result.map appointmentValue) ∧
    (CreateAppointment st2 (CreateAppointment st1 db ⟨C1, S1⟩).store
        ⟨C2, S2⟩).store.availability_slots
      = (CreateAppointment (st1.regenerate n1 i1)
        (CreateAppointment (st2.regenerate n2 i2) db ⟨C2, S2⟩).store
        ⟨C1, S1⟩).store.availability_slots ∧
    ((CreateAppointment st2 (CreateAppointment st1 db ⟨C1, S1⟩).store
        ⟨C2, S2⟩).store.appointments.map appointmentKey).Perm
      ((CreateAppointment (st1.regenerate n1 i1)
        (CreateAppointment (st2.regenerate n2 i2) db ⟨C2, S2⟩).store
        ⟨C1, S1⟩).store.appointments.map appointmentKey) := by
  have h1 := st1.accepts_regenerate n1 i1 2
  have h2 := st2.accepts_regenerate n2 i2 2
  refine ⟨?_, ?_, CreateAppointment_result_regenerate st1 db _ ⟨C1, S1⟩ n1 i1,
    CreateAppointment_result_regenerate st2 _ db ⟨C2, S2⟩ n2 i2, ?_, ?_⟩
  · rw [CreateAppointment_succeeded_iff, CreateAppointment_succeeded_iff]
    exact h1.symm
  · rw [CreateAppointment_succeeded_iff, CreateAppointment_succeeded_iff]
    exact h2.symm
  · simp only [CreateAppointment_store]
    by_cases ha1 : st1.accepts 2 <;> by_cases ha2 : st2.accepts 2
    · rw [if_pos ha1, if_pos ha2, if_pos (h2.mpr ha2), if_pos (h1.mpr ha1)]
      simp only [bookSlot_availability_slots]
      exact markBooked_comm db.availability_slots S1 S2
    · rw [if_pos ha1, if_neg ha2, if_neg (fun h => ha2 (h2.mp h)), if_pos (h1.mpr ha1)]
      rfl
    · rw [if_neg ha1, if_pos ha2, if_pos (h2.mpr ha2), if_neg (fun h => ha1 (h1.mp h))]
      rfl
    · rw [if_neg ha1, if_neg ha2, if_neg (fun h => ha2 (h2.mp h)),
        if_neg (fun h => ha1 (h1.mp h))]
  · simp only [CreateAppointment_store]
    by_cases ha1 : st1.accepts 2 <;> by_cases ha2 : st2.accepts 2
    · rw [if_pos ha1, if_pos ha2, if_pos (h2.mpr ha2), if_pos (h1.mpr ha1)]
      simp only [bookSlot_appointments, List.map_append, List.map_cons, List.map_nil,
        appointmentKey_appointmentRow, List.append_assoc, List.singleton_append]
      exact List.Perm.append_left _ (List.Perm.swap _ _ _)
    · rw [if_pos ha1, if_neg ha2, if_neg (fun h => ha2 (h2.mp h)), if_pos (h1.mpr ha1)]
      simp only [bookSlot_appointments, List.map_append, List.map_cons, List.map_nil,
        appointmentKey_appointmentRow]
      exact List.Perm.refl _
    · rw [if_neg ha1, if_pos ha2, if_pos (h2.mpr ha2), if_neg (fun h => ha1 (h1.mp h))]
      simp only [bookSlot_appointments, List.map_append, List.map_cons, List.map_nil,
        appointmentKey_appointmentRow]
      exact List.Perm.refl _
    · rw [if_neg ha1, if_neg ha2, if_neg (fun h => ha2 (h2.mp h)),
        if_neg (fun h => ha1 (h1.mp h))]

/-- C15, at a concrete input: `c2` books `u1`, which the storage layer
accepts, and `c3` books `old`, whose `UPDATE` the storage layer rejects; in
both orders the first booking succeeds and the second fails, and the final
slot rows and appointment rows agree. -/
theorem CreateAppointment_commute_witness :
    (succeeded (CreateAppointment (Storage.ok 9 "a2") sampleStore ⟨"c2", "u1"⟩).result ∧
      succeeded (CreateAppointment ((Storage.ok 9 "a2").regenerate 21 "b3")
        (CreateAppointment ((Storage.failingAt 1 10 "a3").regenerate 20 "b2") sampleStore
          ⟨"c3", "old"⟩).store ⟨"c2", "u1"⟩).result) ∧
    ((CreateAppointment (Storage.failingAt 1 10 "a3")
        (CreateAppointment (Storage.ok 9 "a2") sampleStore ⟨"c2", "u1"⟩).store
        ⟨"c3", "old"⟩).result.map appointmentValue
      = (CreateAppointment ((Storage.failingAt 1 10 "a3").regenerate 20 "b2") sampleStore
        ⟨"c3", "old"⟩).result.map appointmentValue) ∧
    (CreateAppointment (Storage.failingAt 1 10 "a3")
        (CreateAppointment (Storage.ok 9 "a2") sampleStore ⟨"c2", "u1"⟩).store
        ⟨"c3", "old"⟩).store.availability_slots
      = (CreateAppointment ((Storage.ok 9 "a2").regenerate 21 "b3")
        (CreateAppointment ((Storage.failingAt 1 10 "a3").regenerate 20 "b2") sampleStore
          ⟨"c3", "old"⟩).store ⟨"c2", "u1"⟩).store.availability_slots ∧
    ((CreateAppointment (Storage.failingAt 1 10 "a3")
        (CreateAppointment (Storage.ok 9 "a2") sampleStore ⟨"c2", "u1"⟩).store
        ⟨"c3", "old"⟩).store.appointments.map appointmentKey).Perm
      ((CreateAppointment ((Storage.ok 9 "a2").regenerate 21 "b3")
        (CreateAppointment ((Storage.failingAt 1 10 "a3").regenerate 20 "b2") sampleStore
          ⟨"c3", "old"⟩).store ⟨"c2", "u1"⟩).store.appointments.map appointmentKey) :=
  have h := CreateAppointment_commute (Storage.ok 9 "a2") (Storage.failingAt 1 10 "a3")
    sampleStore "c2" "c3" "u1" "old" 21 20 "b3" "b2"
  ⟨⟨⟨_, rfl⟩, h.1.mp ⟨_, rfl⟩⟩, h.2.2.2.1, h.2.2.2.2.1, h.2.2.2.2.2⟩

/-! ## C16: `ValidateClientBelongsToTrainer` -/

theorem util.findTrainer_iff (trainerID : String) :
    ∀ l : List trainee.Trainer,
      util.findTrainer trainerID l = true ↔ ∃ t, t ∈ l ∧ t.ID = trainerID
  | [] => by simp [util.findTrainer]
  | t :: rest => by
    by_cases h : t.ID = trainerID
    · simp [util.findTrainer, h]
    · simp [util.findTrainer, h, util.findTrainer_iff trainerID rest]

/-- C16: `ValidateClientBelongsToTrainer(client, trainer)` returns `(true,
nil)` exactly when `GetMyTrainers(client)` succeeds with a list that has an
element whose `ID` is `trainer`; `(false, nil)` exactly when it succeeds with a
list (possibly empty) that has none; and `(false, err)` with an error exactly
when `GetMyTrainers` fails, the error being the wrapped error of
`GetMyTrainers`. -/
theorem ValidateClientBelongsToTrainer_spec (rd : Reads) (db : trainee.Store)
    (clientID trainerID : String) :
    (util.ValidateClientBelongsToTrainer rd db clientID trainerID = (true, none) ↔
      ∃ resp, trainee.GetMyTrainers rd db clientID = .ok resp ∧
        ∃ t, t ∈ resp.Trainers ∧ t.ID = trainerID) ∧
    (util.ValidateClientBelongsToTrainer rd db clientID trainerID = (false, none) ↔
      ∃ resp, trainee.GetMyTrainers rd db clientID = .ok resp ∧
        ∀ t, t ∈ resp.Trainers → t.ID ≠ trainerID) ∧
    ((∃ err, util.ValidateClientBelongsToTrainer rd db clientID trainerID = (false, some err)) ↔
      ∃ e, trainee.GetMyTrainers rd db clientID = .error e) ∧
    (∀ e, trainee.GetMyTrainers rd db clientID = .error e →
      util.ValidateClientBelongsToTrainer rd db clientID trainerID
        = (false, some ("failed to get trainers for client: " ++ e))) ∧
    (∀ err, util.ValidateClientBelongsToTrainer rd db clientID trainerID ≠ (true, some err)) := by
  unfold util.ValidateClientBelongsToTrainer
  cases h : trainee.GetMyTrainers rd db clientID with
  | error e => simp
  | ok resp =>
    have hf := util.findTrainer_iff trainerID resp.Trainers
    refine ⟨?_, ?_, ?_, ?_, ?_⟩
    · simp only [Prod.mk.injEq, and_true, Except.ok.injEq, exists_eq_left']
      exact hf
    · simp only [Prod.mk.injEq, and_true, Except.ok.injEq, exists_eq_left']
      rw [← Bool.not_eq_true, hf]
      push_neg
      rfl
    · simp
    · simp
    · simp

/-- C16, at a concrete input: trainee `c1` has an active relationship with the
trainer `t1` and an inactive one with `t2`; a failing query gives `false` and
an error. -/
theorem ValidateClientBelongsToTrainer_spec_witness :
    util.ValidateClientBelongsToTrainer Reads.ok trainee.sampleStore "c1" "t1" = (true, none) ∧
    util.ValidateClientBelongsToTrainer Reads.ok trainee.sampleStore "c1" "t2" = (false, none) ∧
    util.ValidateClientBelongsToTrainer Reads.ok trainee.sampleStore "c9" "t1" = (false, none) ∧
    util.ValidateClientBelongsToTrainer ⟨some "down", fun _ => none, none, 0⟩
        trainee.sampleStore "c1" "t1"
      = (false, some "failed to get trainers for client: failed to query trainers: down") :=
  ⟨((ValidateClientBelongsToTrainer_spec Reads.ok trainee.sampleStore "c1" "t1").1).mpr
      ⟨⟨[⟨"t1", 1, ["strength"], 3⟩]⟩, rfl, _, List.mem_cons_self _ _, rfl⟩,
    by decide, by decide, by decide⟩

/-! ## C17: the appointments of a trainer -/

theorem GetTrainerAppointments_eq_of_ok (rd : Reads) (db : Store) (T : String)
    (resp : GetTrainerAppointmentsResponse) (h : GetTrainerAppointments rd db T = .ok resp) :
    resp.Appointments = (rd.rows (appointmentRows db T)).map (scanAppointmentWithSlot T) := by
  unfold GetTrainerAppointments at h
  cases hq : rd.query with
  | some e => simp [hq] at h
  | none =>
    simp only [hq] at h
    cases hs : scanRows rd (fun err => "failed to scan appointment: " ++ err)
        (scanAppointmentWithSlot T) (rd.rows (appointmentRows db T)) 0 [] with
    | error e => simp [hs] at h
    | ok l =>
      simp only [hs, Except.ok.injEq] at h
      have := scanRows_eq_of_ok rd _ _ _ 0 [] l hs
      rw [← h]
      simpa using this

theorem GetTrainerAppointments_of_no_error (db : Store) (T : String) :
    GetTrainerAppointments Reads.ok db T
      = .ok ⟨(appointmentRows db T).map (scanAppointmentWithSlot T)⟩ := by
  have := scanRows_of_no_error Reads.ok (fun err => "failed to scan appointment: " ++ err)
    (scanAppointmentWithSlot T) (fun _ => rfl) (appointmentRows db T) 0 []
  simp only [GetTrainerAppointments, Reads.ok, Reads.rows] at this ⊢
  rw [this]
  simp

theorem mem_appointmentRows (db : Store) (T : String) (p : AppointmentRow × SlotRow) :
    p ∈ appointmentRows db T ↔
      p.1 ∈ db.appointments ∧ p.1.trainer_id = some T ∧
      p.2 ∈ db.availability_slots ∧ p.1.slot_id = p.2.id := by
  obtain ⟨a, av⟩ := p
  simp only [appointmentRows, List.mem_flatMap, List.mem_filter, List.mem_map, Prod.mk.injEq,
    beq_iff_eq]
  constructor
  · rintro ⟨a0, ⟨ha0, ht⟩, av0, ⟨hav0, hid⟩, rfl, rfl⟩
    exact ⟨ha0, ht, hav0, hid⟩
  · rintro ⟨ha, ht, hav, hid⟩
    exact ⟨a, ⟨ha, ht⟩, av, ⟨hav, hid⟩, rfl, rfl⟩

/-- When slot ids are unique, an id selects at most one slot row. -/
theorem filter_id_map_const {β : Type} (b : β) (sid : String) :
    ∀ (l : List SlotRow), (l.map (fun r => r.id)).Nodup →
      (l.filter (fun av => sid == av.id)).map (fun _ => b)
        = if l.any (fun av => sid == av.id) then [b] else []
  | [], _ => by simp
  | r :: l, hnd => by
    simp only [List.map_cons, List.nodup_cons, List.mem_map, not_exists, not_and] at hnd
    obtain ⟨hnot, hnd⟩ := hnd
    have ih := filter_id_map_const b sid l hnd
    by_cases h : sid = r.id
    · subst h
      have hnil : l.filter (fun av => r.id == av.id) = [] := by
        apply List.filter_eq_nil_iff.mpr
        intro av hav
        simpa using fun heq => hnot av hav heq.symm
      simp [List.filter_cons, hnil]
    · have hb : (sid == r.id) = false := by simpa using h
      simp only [List.filter_cons, hb, List.any_cons, Bool.false_or]
      exact ih

/-- With unique slot ids, the result set has one row per appointment row of
the trainer whose slot exists. -/
theorem appointmentRows_columns (slots : List SlotRow)
    (hkey : (slots.map (fun r => r.id)).Nodup) (T : String) :
    ∀ (apps : List AppointmentRow) (trs : List TrainerRow),
      (appointmentRows ⟨trs, slots, apps⟩ T).map (fun p => selectedColumns p.1)
        = (apps.filter (fun a => a.trainer_id == some T
            && slots.any (fun av => a.slot_id == av.id))).map selectedColumns
  | [], _ => by simp [appointmentRows]
  | a :: apps, trs => by
    have ih := appointmentRows_columns slots hkey T apps trs
    simp only [appointmentRows] at ih ⊢
    have hone := filter_id_map_const (selectedColumns a) a.slot_id slots hkey
    by_cases ht : a.trainer_id = some T
    · have hb : (a.trainer_id == some T) = true := by simpa using ht
      simp only [List.filter_cons, hb, if_true, List.flatMap_cons, List.map_append,
        List.map_map, Function.comp_def, Bool.true_and]
      rw [hone]
      by_cases hany : slots.any (fun av => a.slot_id == av.id) = true
      · rw [if_pos hany, if_pos hany]
        simp only [List.map_cons, List.singleton_append, List.cons.injEq, true_and]
        simpa [List.map_map, Function.comp_def] using ih
      · rw [if_neg hany, if_neg hany]
        simp only [List.nil_append]
        simpa [List.map_map, Function.comp_def] using ih
    · have hb : (a.trainer_id == some T) = false := by simpa using ht
      simp only [List.filter_cons, hb, Bool.false_and]
      exact ih

/-- Each appointment row of the trainer gives as many rows of the result set
as there are slot rows with its slot id. -/
theorem appointmentRows_columns_count (slots : List SlotRow) (T : String)
    (apps : List AppointmentRow) (trs : List TrainerRow) :
    (appointmentRows ⟨trs, slots, apps⟩ T).map (fun p => selectedColumns p.1)
      = (apps.filter (fun a => a.trainer_id == some T)).flatMap (fun a =>
          List.replicate (slots.countP (fun av => a.slot_id == av.id)) (selectedColumns a)) := by
  simp only [appointmentRows, List.map_flatMap, List.map_map]
  congr 1
  funext a
  simp [Function.comp_def, List.countP_eq_length_filter]

/-- C17, as stated, fails: after trainer `U` has stored a slot under the id
`old`, which a slot of `T` already has, the store has one appointment row with
`trainer_id = T` whose slot exists, and `GetTrainerAppointments(T)` returns two
entries for it, the second with the day and times of the slot of `U`. -/
theorem GetTrainerAppointments_two_entries :
    (SetAvailability (Storage.ok 7 "") linkedStore ⟨"U", [clashSlot]⟩).result
      = .ok ⟨[clashSlot]⟩ ∧
    ((SetAvailability (Storage.ok 7 "") linkedStore ⟨"U", [clashSlot]⟩).store.appointments.filter
      (fun a => a.trainer_id == some "T" &&
        (SetAvailability (Storage.ok 7 "") linkedStore
          ⟨"U", [clashSlot]⟩).store.availability_slots.any
            (fun av => a.slot_id == av.id))).length = 1 ∧
    GetTrainerAppointments Reads.ok
        (SetAvailability (Storage.ok 7 "") linkedStore ⟨"U", [clashSlot]⟩).store "T"
      = .ok ⟨[⟨"a1", "c1", "", "old",
            some ⟨"", "T", 1, "09:00", "10:00", false, false, 0⟩, "scheduled", none, 5, 5⟩,
          ⟨"a1", "c1", "", "old",
            some ⟨"", "T", 4, "18:00", "19:00", false, false, 0⟩, "scheduled", none, 5, 5⟩]⟩ :=
  ⟨rfl, by decide, rfl⟩

/-- C17, amended: when the iteration over the result set does not fail, every
appointment returned by `GetTrainerAppointments(T)` has a non-nil `Slot` whose
`TrainerID` is `T` and whose day of week, start time, end time and recurrence
flag are those of a stored slot with the appointment's `SlotID`; the result
has, for each stored appointment row with `trainer_id = T`, one entry
(carrying the selected columns of the row) per stored slot row with the row's
slot id, so none for a row whose slot is missing.  When no two stored slots
share an id, that slot is the only one with this id and there is exactly one
entry per appointment row with `trainer_id = T` whose slot exists.  The
handler returns whenever the storage layer reports no error. -/
theorem GetTrainerAppointments_entries (rd : Reads) (db : Store) (T : String) :
    (∃ resp, GetTrainerAppointments Reads.ok db T = .ok resp) ∧
    ∀ resp, rd.rowsErr = none → GetTrainerAppointments rd db T = .ok resp →
      (∀ a, a ∈ resp.Appointments → ∃ s r, a.Slot = some s ∧ s.TrainerID = T ∧
        r ∈ db.availability_slots ∧ r.id = a.SlotID ∧
        s.DayOfWeek = r.day_of_week ∧ s.StartTime = r.start_time ∧
        s.EndTime = r.end_time ∧ s.IsRecurring = r.is_recurring) ∧
      (resp.Appointments.map returnedColumns).Perm
        ((db.appointments.filter (fun a => a.trainer_id == some T)).flatMap (fun a =>
          List.replicate (db.availability_slots.countP (fun av => a.slot_id == av.id))
            (selectedColumns a))) ∧
      ((db.availability_slots.map (fun r => r.id)).Nodup →
        (∀ a s r, a ∈ resp.Appointments → a.Slot = some s →
          r ∈ db.availability_slots → r.id = a.SlotID →
          s.DayOfWeek = r.day_of_week ∧ s.StartTime = r.start_time ∧
          s.EndTime = r.end_time ∧ s.IsRecurring = r.is_recurring) ∧
        (resp.Appointments.map returnedColumns).Perm
          ((db.appointments.filter (fun a => a.trainer_id == some T
              && db.availability_slots.any (fun av => a.slot_id == av.id))).map
            selectedColumns)) := by
  refine ⟨⟨_, GetTrainerAppointments_of_no_error db T⟩, ?_⟩
  intro resp hiter hok
  have hresp := GetTrainerAppointments_eq_of_ok rd db T resp hok
  rw [rd.rows_of_complete hiter] at hresp
  have hfun : (returnedColumns ∘ scanAppointmentWithSlot T)
      = fun p => selectedColumns p.1 := rfl
  refine ⟨?_, ?_, ?_⟩
  · intro a ha
    rw [hresp] at ha
    obtain ⟨p, hp, rfl⟩ := List.mem_map.mp ha
    obtain ⟨_, _, hav, hid⟩ := (mem_appointmentRows db T p).mp hp
    exact ⟨_, p.2, rfl, rfl, hav, hid.symm, rfl, rfl, rfl, rfl⟩
  · have hcols := appointmentRows_columns_count db.availability_slots T db.appointments
      db.trainers
    rw [hresp, List.map_map, hfun, hcols]
  · intro hkey
    refine ⟨?_, ?_⟩
    · intro a s r ha hs hr hrid
      rw [hresp] at ha
      obtain ⟨p, hp, rfl⟩ := List.mem_map.mp ha
      obtain ⟨_, _, hav, hid⟩ := (mem_appointmentRows db T p).mp hp
      have hrp : r = p.2 := List.inj_on_of_nodup_map hkey hr hav (hrid.trans hid)
      subst hrp
      simp only [scanAppointmentWithSlot, Option.some.injEq] at hs
      subst hs
      exact ⟨rfl, rfl, rfl, rfl⟩
    · have hcols := appointmentRows_columns db.availability_slots hkey T db.appointments
        db.trainers
      rw [hresp, List.map_map, hfun, hcols]

/-- C17, amended, at a concrete input: of the three appointment rows of
`linkedStore`, the one of trainer `T` whose slot exists is returned with the
fields of slot `old`; the one whose slot is missing and the one without
trainer id are not. -/
theorem GetTrainerAppointments_entries_witness :
    GetTrainerAppointments Reads.ok linkedStore "T"
      = .ok ⟨[⟨"a1", "c1", "", "old",
          some ⟨"", "T", 1, "09:00", "10:00", false, false, 0⟩, "scheduled", none, 5, 5⟩]⟩ ∧
    ∀ resp, GetTrainerAppointments Reads.ok linkedStore "T" = .ok resp →
      (resp.Appointments.map returnedColumns).Perm
        ((linkedStore.appointments.filter (fun a => a.trainer_id == some "T"
            && linkedStore.availability_slots.any (fun av => a.slot_id == av.id))).map
          selectedColumns) :=
  ⟨rfl, fun resp h =>
    (((GetTrainerAppointments_entries Reads.ok linkedStore "T").2 resp rfl h).2.2
      (by decide)).2⟩

/-! ## C18: the booked flag of a replaced slot -/

/-- C18, as stated, fails: the storage layer accepting both statements, a
request that submits a slot with `IsBooked = true` succeeds, the returned slot
has `IsBooked = true` and the stored row has `is_booked = true`. -/
theorem SetAvailability_returns_booked_slot :
    (SetAvailability (Storage.ok 7 "") sampleStore ⟨"U", [bookedSlot]⟩).result
      = .ok ⟨[bookedSlot]⟩ ∧
    bookedSlot.IsBooked = true ∧
    (SetAvailability (Storage.ok 7 "") sampleStore ⟨"U", [bookedSlot]⟩).store.availability_slots
      = [⟨"old", "T", 1, "09:00", "10:00", false, true, 5⟩,
         ⟨"s3", "U", 3, "11:00", "12:00", false, true, 7⟩] :=
  ⟨rfl, rfl, rfl⟩

/-- C18, amended: a successful `SetAvailability` returns the submitted slots
as they are and stores, for the trainer, one row per submitted slot with the
`is_booked` value that slot carries.  The returned slots and the stored rows
of the trainer all have `is_booked = false` when every submitted slot has
`IsBooked = false`. -/
theorem SetAvailability_keeps_booked_flag (st : Storage) (db : Store)
    (req : SetAvailabilityRequest) (resp : SetAvailabilityResponse)
    (hok : (SetAvailability st db req).result = .ok resp) :
    resp.Slots = req.Slots ∧
    (SetAvailability st db req).store.availability_slots.filter
        (fun r => r.trainer_id == req.TrainerID)
      = req.Slots.map (slotRow st.now req.TrainerID) ∧
    (∀ s, (slotRow st.now req.TrainerID s).is_booked = s.IsBooked) ∧
    ((∀ s, s ∈ req.Slots → s.IsBooked = false) →
      (∀ s, s ∈ resp.Slots → s.IsBooked = false) ∧
      ∀ r, r ∈ (SetAvailability st db req).store.availability_slots →
        r.trainer_id = req.TrainerID → r.is_booked = false) := by
  have hacc := SetAvailability_accepts_of_ok st db req resp hok
  rw [SetAvailability_of_accepts st db req hacc] at hok ⊢
  simp only [Except.ok.injEq] at hok
  subst hok
  refine ⟨rfl, filter_replaceSlots st.now db req, fun _ => rfl, ?_⟩
  intro hopen
  refine ⟨hopen, ?_⟩
  intro r hr hT
  have hmem : r ∈ (replaceSlots st.now db req).availability_slots.filter
      (fun r => r.trainer_id == req.TrainerID) := by
    rw [List.mem_filter]
    exact ⟨hr, by simpa using hT⟩
  rw [filter_replaceSlots] at hmem
  obtain ⟨s, hs, rfl⟩ := List.mem_map.mp hmem
  exact hopen s hs

/-- C18, amended, at a concrete input: the open slot `goodSlot` is returned
and stored open. -/
theorem SetAvailability_keeps_booked_flag_witness :
    (SetAvailability (Storage.ok 7 "") sampleStore ⟨"T", [goodSlot]⟩).result
      = .ok ⟨[goodSlot]⟩ ∧
    ∀ r, r ∈ (SetAvailability (Storage.ok 7 "") sampleStore
        ⟨"T", [goodSlot]⟩).store.availability_slots → r.trainer_id = "T" →
      r.is_booked = false :=
  ⟨rfl, ((SetAvailability_keeps_booked_flag (Storage.ok 7 "") sampleStore ⟨"T", [goodSlot]⟩
    ⟨[goodSlot]⟩ rfl).2.2.2 (by decide)).2⟩

/-! ## C19: the status of an appointment -/

/-- One step keeps the appointment rows and adds at most rows with status
`scheduled`. -/
theorem Step.appointments {db db1 : Store} (h : Step db db1) :
    ∃ extra, db1.appointments = db.appointments ++ extra ∧
      ∀ a, a ∈ extra → a.status = "scheduled" := by
  cases h with
  | setAvailability st db req =>
    refine ⟨[], ?_, by simp⟩
    by_cases hacc : st.accepts (req.Slots.length + 1)
    · rw [SetAvailability_of_accepts st db req hacc]
      simp [replaceSlots]
    · obtain ⟨e, he, _⟩ := SetAvailability_of_not_accepts st db req hacc
      rw [he]
      simp
  | createAppointment st db req =>
    by_cases hacc : st.accepts 2
    · rw [CreateAppointment_of_accepts st db req hacc]
      refine ⟨[appointmentRow st req.ClientID req.SlotID], rfl, ?_⟩
      intro a ha
      rw [List.mem_singleton.mp ha]
      rfl
    · obtain ⟨e, he, _⟩ := CreateAppointment_of_not_accepts st db req hacc
      rw [he]
      exact ⟨[], by simp, by simp⟩

/-- C19: over any sequence of `SetAvailability` and `CreateAppointment` calls,
the appointment rows of the start are all kept, unchanged and in place (so the
status of an existing row, whatever it is, never changes, and a `completed` or
`cancelled` row never becomes `scheduled`), and every row that was added has
status `scheduled`. -/
theorem appointment_status_kept (db db1 : Store) (h : Relation.ReflTransGen Step db db1) :
    (∃ extra, db1.appointments = db.appointments ++ extra ∧
      ∀ a, a ∈ extra → a.status = "scheduled") ∧
    (∀ i, i < db.appointments.length → db1.appointments[i]? = db.appointments[i]?) ∧
    (∀ (i : Nat) (a : AppointmentRow), db.appointments[i]? = some a → a.status ≠ "scheduled" →
      ∃ a1, db1.appointments[i]? = some a1 ∧ a1.status ≠ "scheduled") := by
  have hext : ∃ extra, db1.appointments = db.appointments ++ extra ∧
      ∀ a, a ∈ extra → a.status = "scheduled" := by
    induction h with
    | refl => exact ⟨[], by simp, by simp⟩
    | tail _ hstep ih =>
      obtain ⟨e1, h1, hs1⟩ := ih
      obtain ⟨e2, h2, hs2⟩ := hstep.appointments
      refine ⟨e1 ++ e2, by rw [h2, h1, List.append_assoc], ?_⟩
      intro a ha
      rcases List.mem_append.mp ha with ha | ha
      · exact hs1 a ha
      · exact hs2 a ha
  obtain ⟨extra, hx, hs⟩ := hext
  have hkeep : ∀ i, i < db.appointments.length →
      db1.appointments[i]? = db.appointments[i]? := by
    intro i hi
    rw [hx, List.getElem?_append_left hi]
  refine ⟨⟨extra, hx, hs⟩, hkeep, ?_⟩
  intro i a hia hst
  have hi : i < db.appointments.length := by
    by_contra hge
    rw [List.getElem?_eq_none (by omega)] at hia
    cases hia
  exact ⟨a, by rw [hkeep i hi, hia], hst⟩

/-- C19, at a concrete input: after a replacement of the slots of `T` and a
booking of `old`, the cancelled third row of `linkedStore` is still there,
cancelled. -/
theorem appointment_status_kept_witness :
    ∃ a1, (CreateAppointment (Storage.ok 9 "a9")
        (SetAvailability (Storage.ok 7 "") linkedStore ⟨"T", [goodSlot]⟩).store
        ⟨"c2", "old"⟩).store.appointments[2]? = some a1 ∧ a1.status ≠ "scheduled" :=
  (appointment_status_kept linkedStore _
    ((Relation.ReflTransGen.single
      (Step.setAvailability (Storage.ok 7 "") linkedStore ⟨"T", [goodSlot]⟩)).tail
      (Step.createAppointment (Storage.ok 9 "a9") _ ⟨"c2", "old"⟩))).2.2 2
    ⟨"a3", "c3", none, "old", "cancelled", some "n", 6, 6⟩ rfl (by decide)

/-! ## C20: the clients of a trainer -/

theorem GetTrainerClients_eq_of_ok (rd : Reads) (db : Store) (T : String)
    (resp : GetTrainerClientsResponse) (h : GetTrainerClients rd db T = .ok resp) :
    resp.ClientIDs = rd.rows (clientRows db T) := by
  unfold GetTrainerClients at h
  cases hq : rd.query with
  | some e => simp [hq] at h
  | none =>
    simp only [hq] at h
    cases hs : scanRows rd id id (rd.rows (clientRows db T)) 0 [] with
    | error e => simp [hs] at h
    | ok l =>
      simp only [hs, Except.ok.injEq] at h
      have := scanRows_eq_of_ok rd id id _ 0 [] l hs
      rw [← h]
      simpa using this

theorem GetTrainerClients_of_no_error (db : Store) (T : String) :
    GetTrainerClients Reads.ok db T = .ok ⟨clientRows db T⟩ := by
  have := scanRows_of_no_error Reads.ok id id (fun _ => rfl) (clientRows db T) 0 []
  simp only [GetTrainerClients, Reads.ok, Reads.rows] at this ⊢
  rw [this]
  simp

theorem nodup_clientRows (db : Store) (T : String) : (clientRows db T).Nodup :=
  List.nodup_dedup _

theorem mem_clientRows (db : Store) (T c : String) :
    c ∈ clientRows db T ↔
      ∃ a, a ∈ db.appointments ∧ a.client_id = c ∧
        ∃ r, r ∈ db.availability_slots ∧ r.id = a.slot_id ∧ r.trainer_id = T := by
  simp only [clientRows, List.mem_dedup, List.mem_flatMap, List.mem_map, List.mem_filter,
    Bool.and_eq_true, beq_iff_eq]
  constructor
  · rintro ⟨a, ha, r, ⟨hr, hid, hT⟩, rfl⟩
    exact ⟨a, ha, rfl, r, hr, hid.symm, hT⟩
  · rintro ⟨a, ha, rfl, r, hr, hid, hT⟩
    exact ⟨a, ha, r, ⟨hr, hid.symm, hT⟩, rfl⟩

/-- When the iteration over the result set does not fail, a
`GetTrainerClients(T)` that returns gives a list without duplicates that holds
exactly the client ids of the appointment rows whose `slot_id` is the id of a
stored slot of `T`, and after a successful `CreateAppointment(C, S)` on a slot
`S` of `T`, `C` occurs exactly once in it.  The handler returns whenever the
storage layer reports no error. -/
theorem GetTrainerClients_complete_read (rd : Reads) (db : Store) (T : String)
    (hiter : rd.rowsErr = none) :
    (∃ resp, GetTrainerClients Reads.ok db T = .ok resp) ∧
    (∀ resp, GetTrainerClients rd db T = .ok resp →
      resp.ClientIDs.Nodup ∧
      ∀ c, c ∈ resp.ClientIDs ↔
        ∃ a, a ∈ db.appointments ∧ a.client_id = c ∧
          ∃ r, r ∈ db.availability_slots ∧ r.id = a.slot_id ∧ r.trainer_id = T) ∧
    (∀ (st : Storage) (C S : String) (a : Appointment) (resp : GetTrainerClientsResponse),
      (CreateAppointment st db ⟨C, S⟩).result = .ok a →
      (∃ r, r ∈ db.availability_slots ∧ r.id = S ∧ r.trainer_id = T) →
      GetTrainerClients rd (CreateAppointment st db ⟨C, S⟩).store T = .ok resp →
      resp.ClientIDs.count C = 1) := by
  refine ⟨⟨_, GetTrainerClients_of_no_error db T⟩, ?_, ?_⟩
  · intro resp hok
    rw [GetTrainerClients_eq_of_ok rd db T resp hok, rd.rows_of_complete hiter]
    exact ⟨nodup_clientRows db T, fun c => mem_clientRows db T c⟩
  · intro st C S a resp hbook hown hok
    have hacc := CreateAppointment_accepts_of_ok st db ⟨C, S⟩ a hbook
    have hstore : (CreateAppointment st db ⟨C, S⟩).store = bookSlot st db ⟨C, S⟩ := by
      rw [CreateAppointment_of_accepts st db ⟨C, S⟩ hacc]
    rw [hstore] at hok
    rw [GetTrainerClients_eq_of_ok rd _ T resp hok, rd.rows_of_complete hiter]
    apply List.count_eq_one_of_mem (nodup_clientRows _ T)
    apply (mem_clientRows _ T C).mpr
    obtain ⟨r, hr, hid, hT⟩ := hown
    obtain ⟨r1, hr1, hid1, hT1⟩ := bookSlot_exists st db ⟨C, S⟩ r hr
    refine ⟨appointmentRow st C S, ?_, rfl, r1, hr1, hid1.trans hid, hT1.trans hT⟩
    rw [bookSlot_appointments]
    simp

/-- C20, the code at a failing input: client `c1` has an appointment on slot
`old` of trainer `T`.  A `GetTrainerClients(T)` whose iteration fails before
the first row returns, without error, the empty list; a read that is not
interrupted returns `c1`.  After a successful booking of `old` by `c2`, a read
whose iteration fails after one row returns `c1` alone: `c2` does not occur in
it. -/
theorem GetTrainerClients_truncated_read :
    (∃ a, a ∈ sampleStore.appointments ∧ a.client_id = "c1" ∧
      ∃ r, r ∈ sampleStore.availability_slots ∧ r.id = a.slot_id ∧ r.trainer_id = "T") ∧
    GetTrainerClients (Reads.stoppingAfter 0) sampleStore "T" = .ok ⟨[]⟩ ∧
    GetTrainerClients Reads.ok sampleStore "T" = .ok ⟨["c1"]⟩ ∧
    (CreateAppointment (Storage.ok 9 "a2") sampleStore ⟨"c2", "old"⟩).result
      = .ok ⟨"a2", "c2", "", "old", none, "scheduled", none, 9, 9⟩ ∧
    GetTrainerClients (Reads.stoppingAfter 1)
        (CreateAppointment (Storage.ok 9 "a2") sampleStore ⟨"c2", "old"⟩).store "T"
      = .ok ⟨["c1"]⟩ ∧
    GetTrainerClients Reads.ok
        (CreateAppointment (Storage.ok 9 "a2") sampleStore ⟨"c2", "old"⟩).store "T"
      = .ok ⟨["c1", "c2"]⟩ :=
  ⟨⟨_, List.mem_cons_self _ _, rfl, _, List.mem_cons_self _ _, rfl, rfl⟩,
    rfl, rfl, rfl, rfl, rfl⟩

/-! ## C21: a new appointment and the appointments of its trainer -/

/-- C21: the row inserted by a successful `CreateAppointment(C, S)` holds the
client id, the slot id and the status `scheduled`, and no trainer id; the
returned appointment has an empty `TrainerID`.  Starting from a store without
appointments, with `S` a slot of trainer `T` (it is still a slot of `T`
afterwards, now booked), `GetTrainerAppointments(T)`, which selects on the
appointment row's own `trainer_id`, then returns no appointment at all, so not
the new one. -/
theorem CreateAppointment_not_listed (st : Storage) (db : Store) (C S T : String)
    (a : Appointment) (hempty : db.appointments = [])
    (hown : ∃ r, r ∈ db.availability_slots ∧ r.id = S ∧ r.trainer_id = T)
    (hok : (CreateAppointment st db ⟨C, S⟩).result = .ok a) :
    (CreateAppointment st db ⟨C, S⟩).store.appointments
      = [⟨st.newID, C, none, S, "scheduled", none, st.now, st.now⟩] ∧
    a.TrainerID = "" ∧
    (∃ r, r ∈ (CreateAppointment st db ⟨C, S⟩).store.availability_slots ∧
      r.id = S ∧ r.trainer_id = T ∧ r.is_booked = true) ∧
    GetTrainerAppointments Reads.ok (CreateAppointment st db ⟨C, S⟩).store T = .ok ⟨[]⟩ ∧
    ∀ rd resp, GetTrainerAppointments rd (CreateAppointment st db ⟨C, S⟩).store T = .ok resp →
      resp.Appointments = [] ∧ ∀ x, x ∈ resp.Appointments → x.ID ≠ a.ID := by
  have hacc := CreateAppointment_accepts_of_ok st db ⟨C, S⟩ a hok
  rw [CreateAppointment_of_accepts st db ⟨C, S⟩ hacc] at hok ⊢
  simp only [Except.ok.injEq] at hok
  subst hok
  have happ : (bookSlot st db ⟨C, S⟩).appointments
      = [⟨st.newID, C, none, S, "scheduled", none, st.now, st.now⟩] := by
    rw [bookSlot_appointments, hempty]
    rfl
  have hrows : appointmentRows (bookSlot st db ⟨C, S⟩) T = [] := by
    simp [appointmentRows, happ]
  refine ⟨happ, rfl, ?_, ?_, ?_⟩
  · obtain ⟨r, hr, hid, hT⟩ := hown
    obtain ⟨r1, hr1, hid1, hT1⟩ := bookSlot_exists st db ⟨C, S⟩ r hr
    exact ⟨r1, hr1, hid1.trans hid, hT1.trans hT,
      bookSlot_booked st db ⟨C, S⟩ r1 hr1 (hid1.trans hid)⟩
  · rw [GetTrainerAppointments_of_no_error, hrows]
    rfl
  · intro rd resp hresp
    have := GetTrainerAppointments_eq_of_ok rd _ T resp hresp
    rw [hrows, rd.rows_nil] at this
    simp only [List.map_nil] at this
    refine ⟨this, ?_⟩
    intro x hx
    rw [this] at hx
    cases hx

/-- C21, at a concrete input: client `c1` books slot `s1` of trainer `T` in a
store without appointments. -/
theorem CreateAppointment_not_listed_witness :
    (CreateAppointment (Storage.ok 9 "a1") emptyBook ⟨"c1", "s1"⟩).result
      = .ok ⟨"a1", "c1", "", "s1", none, "scheduled", none, 9, 9⟩ ∧
    (CreateAppointment (Storage.ok 9 "a1") emptyBook ⟨"c1", "s1"⟩).store.appointments
      = [⟨"a1", "c1", none, "s1", "scheduled", none, 9, 9⟩] ∧
    GetTrainerAppointments Reads.ok
      (CreateAppointment (Storage.ok 9 "a1") emptyBook ⟨"c1", "s1"⟩).store "T" = .ok ⟨[]⟩ :=
  have h := CreateAppointment_not_listed (Storage.ok 9 "a1") emptyBook "c1" "s1" "T"
    ⟨"a1", "c1", "", "s1", none, "scheduled", none, 9, 9⟩ rfl
    ⟨_, List.mem_cons_self _ _, rfl, rfl⟩ rfl
  ⟨rfl, h.1, h.2.2.2.1⟩

/-! ## C22: the token of a user -/

theorem toDigitsCore_length_ge (b : Nat) :
    ∀ (f n : Nat) (ds : List Char), ds.length ≤ (Nat.toDigitsCore b f n ds).length
  | 0, _, ds => by simp [Nat.toDigitsCore]
  | f + 1, n, ds => by
    simp only [Nat.toDigitsCore]
    split
    · simp
    · exact Nat.le_trans (by simp) (toDigitsCore_length_ge b f (n / b) _)

theorem toDigitsCore_succ_length (b f n : Nat) (ds : List Char) :
    ds.length + 1 ≤ (Nat.toDigitsCore b (f + 1) n ds).length := by
  simp only [Nat.toDigitsCore]
  split
  · simp
  · exact Nat.le_trans (by simp) (toDigitsCore_length_ge b f (n / b) _)

/-- The decimal digits of a natural number are at least one character. -/
theorem repr_length_pos (n : Nat) : 1 ≤ (Nat.repr n).length := by
  have := toDigitsCore_succ_length 10 n n []
  simpa [Nat.repr, Nat.toDigits, String.length, List.asString] using this

/-- The decimal digits of a number from ten on are at least two characters. -/
theorem repr_length_two (n : Nat) (h : 10 ≤ n) : 2 ≤ (Nat.repr n).length := by
  obtain ⟨k, rfl⟩ : ∃ k, n = k + 1 := ⟨n - 1, by omega⟩
  have hdiv : (k + 1) / 10 ≠ 0 := by omega
  have := toDigitsCore_succ_length 10 k ((k + 1) / 10) [Nat.digitChar ((k + 1) % 10)]
  simp only [Nat.repr, Nat.toDigits, String.length, List.asString]
  rw [Nat.toDigitsCore]
  simp only [hdiv, if_false]
  simpa using this

theorem admin.stringOfInt_length (n : Int) : (admin.stringOfInt n).length = 1 := by
  unfold admin.stringOfInt
  split <;> rfl

/-- The conversion `string(n)` never gives the decimal digits of `n`. -/
theorem admin.stringOfInt_ne_decimal (n : Int) : admin.stringOfInt n ≠ toString n := by
  intro h
  have hlen := admin.stringOfInt_length n
  rw [h] at hlen
  cases n with
  | ofNat m =>
    by_cases hm : m < 10
    · clear hlen
      interval_cases m <;> exact absurd h (by decide)
    · have := repr_length_two m (by omega)
      have e : toString (Int.ofNat m) = Nat.repr m := rfl
      rw [e] at hlen
      omega
  | negSucc m =>
    have e : toString (Int.negSucc m) = "-" ++ Nat.repr (m + 1) := rfl
    rw [e, String.length_append] at hlen
    have := repr_length_pos (m + 1)
    have h1 : ("-" : String).length = 1 := rfl
    omega

theorem toNat_ofNat_of_valid (n : Nat) (h : n.isValidChar) : (Char.ofNat n).toNat = n := by
  simp [Char.ofNat, h, Char.ofNatAux, Char.toNat, UInt32.toNat]

/-- A successful `Register` returns the token of the generated user id. -/
theorem admin.Register_token (st : Storage) (w : admin.World) (db : admin.Store)
    (params : admin.RegisterParams) (resp : admin.AuthResponse)
    (h : (admin.Register st w db params).result = .ok resp) :
    resp.Token = admin.generateToken w.userID ∧ resp.User.ID = w.userID := by
  unfold admin.Register at h
  cases hb : st.begin with
  | some e => simp [hb] at h
  | none =>
    cases h0 : st.exec 0 with
    | some e => simp [hb, h0] at h
    | none =>
      cases h1 : st.exec 1 with
      | some e => simp [hb, h0, h1] at h
      | none =>
        cases hc : st.commit with
        | some e => simp [hb, h0, h1, hc] at h
        | none =>
          simp only [hb, h0, h1, hc, Except.ok.injEq] at h
          subst h
          exact ⟨rfl, rfl⟩

/-- A successful `Login` returns the token of the id of the user it returns. -/
theorem admin.Login_token (rd : Reads) (w : admin.World) (db : admin.Store)
    (params : admin.LoginParams) (resp : admin.AuthResponse)
    (h : admin.Login rd w db params = .ok resp) :
    resp.Token = admin.generateToken resp.User.ID := by
  unfold admin.Login at h
  cases hq : rd.query with
  | some e => simp [hq] at h
  | none =>
    cases hrow : (db.users.filter (fun u => u.username == params.Username)).head? with
    | none => simp [hq, hrow] at h
    | some row =>
      cases hs : rd.scan 0 with
      | some e => simp [hq, hrow, hs] at h
      | none =>
        by_cases hv : admin.verifyPassword w params.Password row.password_hash = true
        · simp only [hq, hrow, hs, hv, if_true, Except.ok.injEq] at h
          subst h
          rfl
        · simp [hq, hrow, hs, hv] at h

/-- C22: for every user id, `generateToken` is the text
`generated-jwt-token-for-user-` followed by one character: the one whose code
point is the id, or U+FFFD when the id is negative, a surrogate or above
`0x10FFFF`; it is never that text followed by the decimal digits of the id.
The mapping is not injective: the ids 55296 and 55297 have the same token.
`Register` returns the token of the id generated for the new user and `Login`
the token of the id of the user it found, so two users with these ids receive
the same token from both. -/
theorem generateToken_spec :
    (∀ userID : Int, ∃ c : Char,
      admin.generateToken userID = "generated-jwt-token-for-user-" ++ String.singleton c ∧
      ((0 ≤ userID ∧ userID ≤ 0x10FFFF ∧ ¬ (0xD800 ≤ userID ∧ userID ≤ 0xDFFF)) →
        (c.toNat : Int) = userID) ∧
      ((userID < 0 ∨ (0xD800 ≤ userID ∧ userID ≤ 0xDFFF) ∨ 0x10FFFF < userID) →
        c.toNat = 0xFFFD)) ∧
    (∀ userID : Int,
      admin.generateToken userID ≠ "generated-jwt-token-for-user-" ++ toString userID) ∧
    ((55296 : Int) ≠ 55297 ∧ admin.generateToken 55296 = admin.generateToken 55297) ∧
    (∀ st w db params resp, (admin.Register st w db params).result = .ok resp →
      resp.Token = admin.generateToken w.userID ∧ resp.User.ID = w.userID) ∧
    (∀ rd w db params resp, admin.Login rd w db params = .ok resp →
      resp.Token = admin.generateToken resp.User.ID) ∧
    (∃ r1 r2,
      (admin.Register (Storage.ok 7 "") (admin.sampleWorld 55296) ⟨[], []⟩
        admin.sampleParams).result = .ok r1 ∧
      (admin.Register (Storage.ok 7 "") (admin.sampleWorld 55297) ⟨[], []⟩
        admin.sampleParams).result = .ok r2 ∧
      r1.User.ID ≠ r2.User.ID ∧ r1.Token = r2.Token) ∧
    (∃ r1 r2,
      admin.Login Reads.ok (admin.sampleWorld 0) (admin.sampleStore 55296) ⟨"ann", "pw"⟩
        = .ok r1 ∧
      admin.Login Reads.ok (admin.sampleWorld 0) (admin.sampleStore 55297) ⟨"ann", "pw"⟩
        = .ok r2 ∧
      r1.User.ID ≠ r2.User.ID ∧ r1.Token = r2.Token) := by
  refine ⟨?_, ?_, ⟨by decide, by decide⟩, admin.Register_token, admin.Login_token, ?_, ?_⟩
  · intro userID
    by_cases hv : 0 ≤ userID ∧ userID.toNat.isValidChar
    · refine ⟨Char.ofNat userID.toNat, by simp [admin.generateToken, admin.stringOfInt, hv],
        ?_, ?_⟩
      · intro _
        rw [toNat_ofNat_of_valid _ hv.2]
        exact Int.toNat_of_nonneg hv.1
      · intro hbad
        exfalso
        obtain ⟨h0, hval⟩ := hv
        have hval2 : userID.toNat < 0xd800 ∨ (0xdfff < userID.toNat ∧ userID.toNat < 0x110000) :=
          hval
        omega
    · refine ⟨Char.ofNat 0xFFFD, by simp [admin.generateToken, admin.stringOfInt, hv], ?_, ?_⟩
      · intro hgood
        exfalso
        apply hv
        refine ⟨hgood.1, ?_⟩
        show userID.toNat < 0xd800 ∨ (0xdfff < userID.toNat ∧ userID.toNat < 0x110000)
        omega
      · intro _
        decide
  · intro userID h
    apply admin.stringOfInt_ne_decimal userID
    rw [String.ext_iff] at h ⊢
    simp only [admin.generateToken, String.data_append] at h
    exact List.append_cancel_left h
  · exact ⟨_, _, rfl, rfl, by decide, by decide⟩
  · exact ⟨_, _, rfl, rfl, by decide, by decide⟩

/-- C22, at concrete inputs: the user with id 65 gets the token ending in `A`,
not in `65`, from `Register`. -/
theorem generateToken_spec_witness :
    ∃ resp, (admin.Register (Storage.ok 7 "") (admin.sampleWorld 65) ⟨[], []⟩
        admin.sampleParams).result = .ok resp ∧
      resp.Token = "generated-jwt-token-for-user-A" ∧
      resp.Token ≠ "generated-jwt-token-for-user-65" :=
  have ht := (generateToken_spec.2.2.2.1 (Storage.ok 7 "") (admin.sampleWorld 65) ⟨[], []⟩
    admin.sampleParams _ rfl).1
  ⟨_, rfl, ht.trans (by decide), by rw [ht]; decide⟩

end FitnessApp
